import Mathlib

/-!
Biquad filter (`MultiFilter`).

A shallow embedding of `src/plugin/Source/MultiFilter.h`.

* Samples, parameters and coefficients (`float` / `double` in the source) are
  elements of an ordered field `F` with a floor function; the arithmetic of the
  source is read as exact arithmetic in `F`.  Every definition is generic in `F`,
  so it runs on `ℚ` and specialises to `ℝ`.  Properties that hold in exact
  arithmetic only and are decided by the rounding, overflow or underflow of
  `double` are not stated.
* The `<cmath>` functions and `juce::MathConstants<double>::pi` are library code
  and are passed in as a `MathLib F`.
* `juce::SmoothedValue<double>` is library code as well.  The filter only uses its
  interface, passed in as a `Smoother F S`; `SmoothedValue` below is the concrete
  linear ramp.
-/

set_option linter.unusedSectionVars false
set_option linter.unusedVariables false

namespace BiquadFilter

/-- The library functions used by `updateCoefficients`: the constant pi, `sin`,
`cos`, `std::sqrt` and `pow`. -/
structure MathLib (F : Type) where
  pi : F
  sin : F → F
  cos : F → F
  sqrt : F → F
  pow : F → F → F

/-- The interface of the cutoff smoother as `MultiFilter` uses it: the default
constructed value, `reset (sampleRate, rampLengthInSeconds)`, `setTargetValue`,
`isSmoothing` and `getNextValue` (which returns the value and the advanced
smoother). -/
structure Smoother (F S : Type) where
  init : S
  reset : S → F → F → S
  setTargetValue : S → F → S
  isSmoothing : S → Bool
  getNextValue : S → F × S

/-- Modelled from the spec: the state of the cutoff smoother
(`juce::SmoothedValue<double>`, a library class whose source is not in the
repository): current value, target value, per-step increment, remaining steps,
and the ramp length in steps configured by `reset`. -/
structure SmoothedValue (F : Type) where
  currentValue : F
  target : F
  step : F
  countdown : Int
  stepsToTarget : Int

namespace SmoothedValue

variable {F : Type} [LinearOrderedField F] [FloorRing F]

/-- Modelled from the spec: a default constructed smoother is at rest at zero,
with no ramp length configured. -/
def init : SmoothedValue F :=
  { currentValue := 0, target := 0, step := 0, countdown := 0, stepsToTarget := 0 }

/-- Modelled from the spec: the smoother is at rest exactly when no steps
remain. -/
def isSmoothing (v : SmoothedValue F) : Bool :=
  decide (0 < v.countdown)

/-- Modelled from the spec: jump to a value and report at rest. -/
def setCurrentAndTargetValue (v : SmoothedValue F) (newValue : F) : SmoothedValue F :=
  { v with target := newValue, currentValue := newValue, countdown := 0 }

/-- Modelled from the spec: `reset (sampleRate, rampLengthInSeconds)` sets the ramp
length to `floor (rampLengthInSeconds * sampleRate)` steps and puts the smoother
at rest at its target.  The conversion of the floor to `int` is taken to be exact. -/
def reset (v : SmoothedValue F) (sampleRate rampLengthInSeconds : F) : SmoothedValue F :=
  setCurrentAndTargetValue { v with stepsToTarget := ⌊rampLengthInSeconds * sampleRate⌋ } v.target

/-- Modelled from the spec: `setTargetValue` starts a ramp of `stepsToTarget`
equal steps from the current value to the new target.  A target equal to the
present one is ignored, and with no ramp length the smoother jumps. -/
def setTargetValue (v : SmoothedValue F) (newValue : F) : SmoothedValue F :=
  if newValue = v.target then v
  else if v.stepsToTarget ≤ 0 then setCurrentAndTargetValue v newValue
  else
    { v with
      target := newValue
      countdown := v.stepsToTarget
      step := (newValue - v.currentValue) / (v.stepsToTarget : F) }

/-- Modelled from the spec: `getNextValue` steps toward the target; the step that
uses up the remaining steps lands on the target exactly. -/
def getNextValue (v : SmoothedValue F) : F × SmoothedValue F :=
  if isSmoothing v then
    let v1 : SmoothedValue F := { v with countdown := v.countdown - 1 }
    if isSmoothing v1 then
      let v2 : SmoothedValue F := { v1 with currentValue := v1.currentValue + v1.step }
      (v2.currentValue, v2)
    else
      let v2 : SmoothedValue F := { v1 with currentValue := v1.target }
      (v2.currentValue, v2)
  else (v.target, v)

/-- Modelled from the spec: the linear smoother packaged as the interface
`MultiFilter` uses. -/
def smoother : Smoother F (SmoothedValue F) :=
  { init := init
    reset := reset
    setTargetValue := setTargetValue
    isSmoothing := isSmoothing
    getNextValue := getNextValue }

end SmoothedValue

/-- The value of a `FilterType` enumeration object: the enumerators are `0..5`, and
`setFilterType` can store any integer. -/
abbrev FilterType := Int

namespace FilterType

def LowPass : FilterType := 0
def HighPass : FilterType := 1
def BandPass : FilterType := 2
def Notch : FilterType := 3
def HighShelf : FilterType := 4
def LowShelf : FilterType := 5

end FilterType

/-- The data members of `MultiFilter`; `S` is the state of the smoother. -/
structure MultiFilter (F S : Type) where
  samplingRate : F
  cutoffFrequency : F
  Q : F
  gainDB : F
  filterType : FilterType
  a0 : F
  a1 : F
  a2 : F
  b0 : F
  b1 : F
  b2 : F
  prevX1 : F
  prevX2 : F
  prevY1 : F
  prevY2 : F
  smoothedCutoffFreq : S

variable {F S : Type} [LinearOrderedField F] [FloorRing F]

/-- The constructor.  Its initialiser list omits `b0`, so the initial `b0` is
indeterminate and is taken as the argument `b0`. -/
def MultiFilter.new (sv : Smoother F S) (b0 : F) : MultiFilter F S :=
  { samplingRate := 44100
    cutoffFrequency := 1000
    Q := 707 / 1000
    gainDB := 0
    filterType := FilterType.LowPass
    a0 := 1
    a1 := 0
    a2 := 0
    b0 := b0
    b1 := 0
    b2 := 0
    prevX1 := 0
    prevX2 := 0
    prevY1 := 0
    prevY2 := 0
    smoothedCutoffFreq := sv.init }

/-- The `switch` of `updateCoefficients`: the raw coefficients of the selected
case; a value that is no enumerator falls to `default` and assigns nothing. -/
def rawCoefficients (m : MathLib F) (s : MultiFilter F S) : MultiFilter F S :=
  let omega := 2 * m.pi * s.cutoffFrequency / s.samplingRate
  let alpha := m.sin omega / (2 * s.Q)
  let cos_omega := m.cos omega
  if s.filterType = FilterType.LowPass then
    { s with
      b0 := (1 - cos_omega) / 2
      b1 := 1 - cos_omega
      b2 := (1 - cos_omega) / 2
      a0 := 1 + alpha
      a1 := -2 * cos_omega
      a2 := 1 - alpha }
  else if s.filterType = FilterType.HighPass then
    { s with
      b0 := (1 + cos_omega) / 2
      b1 := -(1 + cos_omega)
      b2 := (1 + cos_omega) / 2
      a0 := 1 + alpha
      a1 := -2 * cos_omega
      a2 := 1 - alpha }
  else if s.filterType = FilterType.BandPass then
    { s with
      b0 := alpha
      b1 := 0
      b2 := -alpha
      a0 := 1 + alpha
      a1 := -2 * cos_omega
      a2 := 1 - alpha }
  else if s.filterType = FilterType.Notch then
    { s with
      b0 := 1
      b1 := -2 * cos_omega
      b2 := 1
      a0 := 1 + alpha
      a1 := -2 * cos_omega
      a2 := 1 - alpha }
  else if s.filterType = FilterType.LowShelf then
    let A := m.pow 10 (s.gainDB / 40)
    { s with
      b0 := A * ((A + 1) - (A - 1) * cos_omega + 2 * m.sqrt A * alpha)
      b1 := 2 * A * ((A - 1) - (A + 1) * cos_omega)
      b2 := A * ((A + 1) - (A - 1) * cos_omega - 2 * m.sqrt A * alpha)
      a0 := (A + 1) + (A - 1) * cos_omega + 2 * m.sqrt A * alpha
      a1 := -2 * ((A - 1) + (A + 1) * cos_omega)
      a2 := (A + 1) + (A - 1) * cos_omega - 2 * m.sqrt A * alpha }
  else if s.filterType = FilterType.HighShelf then
    let A := m.pow 10 (s.gainDB / 40)
    { s with
      b0 := A * ((A + 1) + (A - 1) * cos_omega + 2 * m.sqrt A * alpha)
      b1 := -2 * A * ((A - 1) + (A + 1) * cos_omega)
      b2 := A * ((A + 1) + (A - 1) * cos_omega - 2 * m.sqrt A * alpha)
      a0 := (A + 1) - (A - 1) * cos_omega + 2 * m.sqrt A * alpha
      a1 := 2 * ((A - 1) - (A + 1) * cos_omega)
      a2 := (A + 1) - (A - 1) * cos_omega - 2 * m.sqrt A * alpha }
  else s

/-- The function `updateCoefficients`: the `switch`, then the division of `b0`, `b1`,
`b2`, `a1`, `a2` by `a0`. -/
def updateCoefficients (m : MathLib F) (s : MultiFilter F S) : MultiFilter F S :=
  let r := rawCoefficients m s
  { r with
    b0 := r.b0 / r.a0
    b1 := r.b1 / r.a0
    b2 := r.b2 / r.a0
    a1 := r.a1 / r.a0
    a2 := r.a2 / r.a0 }

/-- The function `setSamplingRate`. -/
def setSamplingRate (m : MathLib F) (sv : Smoother F S) (s : MultiFilter F S)
    (sampleRate : F) : MultiFilter F S :=
  updateCoefficients m
    { s with
      samplingRate := sampleRate
      smoothedCutoffFreq := sv.reset s.smoothedCutoffFreq sampleRate (5 / 100) }

/-- The function `setCutoffFrequency`. -/
def setCutoffFrequency (sv : Smoother F S) (s : MultiFilter F S) (cutoffFreq : F) :
    MultiFilter F S :=
  { s with smoothedCutoffFreq := sv.setTargetValue s.smoothedCutoffFreq cutoffFreq }

/-- The function `setResonans`. -/
def setResonans (m : MathLib F) (s : MultiFilter F S) (resonans : F) : MultiFilter F S :=
  updateCoefficients m { s with Q := resonans }

/-- The function `setGain`. -/
def setGain (m : MathLib F) (s : MultiFilter F S) (gain : F) : MultiFilter F S :=
  updateCoefficients m { s with gainDB := gain }

/-- The conversion `static_cast<FilterType>(typeValue)` of a floating value:
truncation toward zero. -/
def toFilterType (typeValue : F) : FilterType :=
  if 0 ≤ typeValue then ⌊typeValue⌋ else ⌈typeValue⌉

/-- The function `setFilterType`. -/
def setFilterType (m : MathLib F) (s : MultiFilter F S) (typeValue : F) : MultiFilter F S :=
  updateCoefficients m { s with filterType := toFilterType typeValue }

/-- The function `processSample`: the returned sample and the state it leaves. -/
def processSample (m : MathLib F) (sv : Smoother F S) (s : MultiFilter F S) (input : F) :
    F × MultiFilter F S :=
  let s1 : MultiFilter F S :=
    if sv.isSmoothing s.smoothedCutoffFreq then
      let r := sv.getNextValue s.smoothedCutoffFreq
      updateCoefficients m { s with cutoffFrequency := r.1, smoothedCutoffFreq := r.2 }
    else s
  let output :=
    s1.b0 * input + s1.b1 * s1.prevX1 + s1.b2 * s1.prevX2 - s1.a1 * s1.prevY1 - s1.a2 * s1.prevY2
  (output, { s1 with prevX2 := s1.prevX1, prevX1 := input, prevY2 := s1.prevY1, prevY1 := output })

/-- The state after the first `n` samples of the stream `u` went through
`processSample`, one call per sample. -/
def stateAfter (m : MathLib F) (sv : Smoother F S) (s : MultiFilter F S) (u : ℕ → F) :
    ℕ → MultiFilter F S
  | 0 => s
  | n + 1 => (processSample m sv (stateAfter m sv s u n) (u n)).2

/-- The value returned by the call of `processSample` on sample `n` of the stream
`u` (counting from zero). -/
def outputAt (m : MathLib F) (sv : Smoother F S) (s : MultiFilter F S) (u : ℕ → F) (n : ℕ) : F :=
  (processSample m sv (stateAfter m sv s u n) (u n)).1

/-- The calls a client can make on a `MultiFilter`. -/
inductive Call (F : Type) where
  | setSamplingRate (sampleRate : F)
  | setCutoffFrequency (cutoffFreq : F)
  | setResonans (resonans : F)
  | setGain (gain : F)
  | setFilterType (typeValue : F)
  | processSample (input : F)

/-- The state a call leaves (the value `processSample` returns is dropped). -/
def Call.apply (m : MathLib F) (sv : Smoother F S) (s : MultiFilter F S) : Call F → MultiFilter F S
  | Call.setSamplingRate r => BiquadFilter.setSamplingRate m sv s r
  | Call.setCutoffFrequency t => BiquadFilter.setCutoffFrequency sv s t
  | Call.setResonans q => BiquadFilter.setResonans m s q
  | Call.setGain g => BiquadFilter.setGain m s g
  | Call.setFilterType v => BiquadFilter.setFilterType m s v
  | Call.processSample x => (BiquadFilter.processSample m sv s x).2

/-- The calls whose body ends in `updateCoefficients ()`: every setter except
`setCutoffFrequency`. -/
def Call.derives : Call F → Bool
  | Call.setSamplingRate _ => true
  | Call.setCutoffFrequency _ => false
  | Call.setResonans _ => true
  | Call.setGain _ => true
  | Call.setFilterType _ => true
  | Call.processSample _ => false

/-- The state after a sequence of calls, first call first. -/
def runCalls (m : MathLib F) (sv : Smoother F S) (s : MultiFilter F S) (cs : List (Call F)) :
    MultiFilter F S :=
  cs.foldl (Call.apply m sv) s

/-- The unit impulse `1, 0, 0, ...`. -/
def impulse : ℕ → F := fun n => if n = 0 then 1 else 0

/-! ### The derivation as the spec words it -/

/-- The six response shapes the spec names. -/
inductive Shape where
  | lowPass
  | highPass
  | bandPass
  | notch
  | lowShelf
  | highShelf

/-- The enumerator of `FilterType` that selects a shape. -/
def Shape.toFilterType : Shape → FilterType
  | Shape.lowPass => FilterType.LowPass
  | Shape.highPass => FilterType.HighPass
  | Shape.bandPass => FilterType.BandPass
  | Shape.notch => FilterType.Notch
  | Shape.lowShelf => FilterType.LowShelf
  | Shape.highShelf => FilterType.HighShelf

/-- A set of raw biquad coefficients. -/
structure Coefficients (F : Type) where
  b0 : F
  b1 : F
  b2 : F
  a0 : F
  a1 : F
  a2 : F

/-- The spec's derivation, before normalisation: the raw Audio-EQ-Cookbook
coefficients of a shape, with `omega = 2 pi cutoff / sampleRate`,
`alpha = sin omega / (2 Q)` and, for the shelves, `A = 10 ^ (gainDb / 40)`. -/
def cookbook (m : MathLib F) (shape : Shape) (cutoff sampleRate q gainDb : F) : Coefficients F :=
  let w := 2 * m.pi * cutoff / sampleRate
  let al := m.sin w / (2 * q)
  let c := m.cos w
  let A := m.pow 10 (gainDb / 40)
  let r := m.sqrt A
  match shape with
  | Shape.lowPass =>
    { b0 := (1 - c) / 2, b1 := 1 - c, b2 := (1 - c) / 2, a0 := 1 + al, a1 := -2 * c, a2 := 1 - al }
  | Shape.highPass =>
    { b0 := (1 + c) / 2, b1 := -(1 + c), b2 := (1 + c) / 2, a0 := 1 + al, a1 := -2 * c, a2 := 1 - al }
  | Shape.bandPass =>
    { b0 := al, b1 := 0, b2 := -al, a0 := 1 + al, a1 := -2 * c, a2 := 1 - al }
  | Shape.notch =>
    { b0 := 1, b1 := -2 * c, b2 := 1, a0 := 1 + al, a1 := -2 * c, a2 := 1 - al }
  | Shape.lowShelf =>
    { b0 := A * ((A + 1) - (A - 1) * c + 2 * r * al)
      b1 := 2 * A * ((A - 1) - (A + 1) * c)
      b2 := A * ((A + 1) - (A - 1) * c - 2 * r * al)
      a0 := (A + 1) + (A - 1) * c + 2 * r * al
      a1 := -2 * ((A - 1) + (A + 1) * c)
      a2 := (A + 1) + (A - 1) * c - 2 * r * al }
  | Shape.highShelf =>
    { b0 := A * ((A + 1) + (A - 1) * c + 2 * r * al)
      b1 := -2 * A * ((A - 1) + (A + 1) * c)
      b2 := A * ((A + 1) + (A - 1) * c - 2 * r * al)
      a0 := (A + 1) - (A - 1) * c + 2 * r * al
      a1 := 2 * ((A - 1) - (A + 1) * c)
      a2 := (A + 1) - (A - 1) * c - 2 * r * al }

/-- The stored `b0, b1, b2, a1, a2` are the cookbook coefficients of a shape at the
given parameters, each divided by the raw `a0`. -/
def StoresDerivation (m : MathLib F) (s : MultiFilter F S) (shape : Shape)
    (cutoff sampleRate q gainDb : F) : Prop :=
  s.b0 = (cookbook m shape cutoff sampleRate q gainDb).b0 / (cookbook m shape cutoff sampleRate q gainDb).a0 ∧
  s.b1 = (cookbook m shape cutoff sampleRate q gainDb).b1 / (cookbook m shape cutoff sampleRate q gainDb).a0 ∧
  s.b2 = (cookbook m shape cutoff sampleRate q gainDb).b2 / (cookbook m shape cutoff sampleRate q gainDb).a0 ∧
  s.a1 = (cookbook m shape cutoff sampleRate q gainDb).a1 / (cookbook m shape cutoff sampleRate q gainDb).a0 ∧
  s.a2 = (cookbook m shape cutoff sampleRate q gainDb).a2 / (cookbook m shape cutoff sampleRate q gainDb).a0

/-- The stored coefficients agree with the derivation applied to the stored
`samplingRate`, `cutoffFrequency`, `Q`, `gainDB` and `filterType`. -/
def CoefficientsConsistent (m : MathLib F) (s : MultiFilter F S) : Prop :=
  ∀ shape : Shape, s.filterType = shape.toFilterType →
    StoresDerivation m s shape s.cutoffFrequency s.samplingRate s.Q s.gainDB

/-- The value `x` lies between `p` and `t` (in either order). -/
def Between (p t x : F) : Prop :=
  (p ≤ x ∧ x ≤ t) ∨ (t ≤ x ∧ x ≤ p)

/-- After `n` samples of the stream `u` the filter started in `s0` has settled at the
cutoff `t`: `cutoffFrequency` is `t`, the smoother is at rest, the stored
coefficients are the derivation at cutoff `t`, sample rate `rate`, resonance `q` and
gain `g` for the shape that `ft` selects, and every further sample leaves
`cutoffFrequency` and `b0, b1, b2, a1, a2` as they are. -/
def SettledAt (m : MathLib F) (sv : Smoother F S) (s0 : MultiFilter F S) (u : ℕ → F) (n : ℕ)
    (t rate q g : F) (ft : FilterType) : Prop :=
  (stateAfter m sv s0 u n).cutoffFrequency = t ∧
  sv.isSmoothing (stateAfter m sv s0 u n).smoothedCutoffFreq = false ∧
  (∀ shape : Shape, ft = shape.toFilterType →
    StoresDerivation m (stateAfter m sv s0 u n) shape t rate q g) ∧
  ∀ j : ℕ,
    (stateAfter m sv s0 u (n + j)).cutoffFrequency = t ∧
    (stateAfter m sv s0 u (n + j)).b0 = (stateAfter m sv s0 u n).b0 ∧
    (stateAfter m sv s0 u (n + j)).b1 = (stateAfter m sv s0 u n).b1 ∧
    (stateAfter m sv s0 u (n + j)).b2 = (stateAfter m sv s0 u n).b2 ∧
    (stateAfter m sv s0 u (n + j)).a1 = (stateAfter m sv s0 u n).a1 ∧
    (stateAfter m sv s0 u (n + j)).a2 = (stateAfter m sv s0 u n).a2

/-! ### The block loop of `PluginProcessor.cpp` -/

/-- The inner loop of `processBlock` on one channel: each sample is handed to
`processSample` by reference and the returned value is dropped.  The body of
`processSample` has no assignment to its argument, so the sample the buffer holds
after the call is the sample it held before. -/
def processChannel (m : MathLib F) (sv : Smoother F S) (f : MultiFilter F S) :
    List F → MultiFilter F S × List F
  | [] => (f, [])
  | x :: xs =>
    ((processChannel m sv (processSample m sv f x).2 xs).1,
      x :: (processChannel m sv (processSample m sv f x).2 xs).2)

/-- The first loop of `processBlock`: `buffer.clear (i, 0, numSamples)` for every
channel `totalNumInputChannels <= i < totalNumOutputChannels`; the argument `i` is
the index of the head of the list. -/
def clearChannels (totalNumInputChannels totalNumOutputChannels : ℕ) :
    ℕ → List (List F) → List (List F)
  | _, [] => []
  | i, ch :: chs =>
    (if totalNumInputChannels ≤ i ∧ i < totalNumOutputChannels then ch.map (fun _ => 0) else ch)
      :: clearChannels totalNumInputChannels totalNumOutputChannels (i + 1) chs

/-- The second loop of `processBlock`: channel `channel` of the buffer goes through
`mFilter[channel]`, for the first `n` channels.  A channel index without a filter or
without buffer data is outside the arrays in the source and is left alone here. -/
def processInputs (m : MathLib F) (sv : Smoother F S) :
    ℕ → List (MultiFilter F S) → List (List F) → List (MultiFilter F S) × List (List F)
  | n + 1, f :: fs, ch :: chs =>
    ((processChannel m sv f ch).1 :: (processInputs m sv n fs chs).1,
      (processChannel m sv f ch).2 :: (processInputs m sv n fs chs).2)
  | _, fs, chs => (fs, chs)

/-- The function `FilterAudioProcessor::processBlock` on the array `mFilter` and the
channels of the audio buffer: the filters and the buffer it leaves. -/
def processBlock (m : MathLib F) (sv : Smoother F S)
    (totalNumInputChannels totalNumOutputChannels : ℕ)
    (mFilter : List (MultiFilter F S)) (buffer : List (List F)) :
    List (MultiFilter F S) × List (List F) :=
  processInputs m sv totalNumInputChannels mFilter
    (clearChannels totalNumInputChannels totalNumOutputChannels 0 buffer)

/-- A state whose `filterType` is the value 7, outside the enumerators, with
`a0 = 2` and the five normalised coefficients zero. -/
def zeroCoefficientState : MultiFilter F (SmoothedValue F) :=
  { samplingRate := 44100
    cutoffFrequency := 1000
    Q := 707 / 1000
    gainDB := 0
    filterType := 7
    a0 := 2
    a1 := 0
    a2 := 0
    b0 := 0
    b1 := 0
    b2 := 0
    prevX1 := 0
    prevX2 := 0
    prevY1 := 0
    prevY2 := 0
    smoothedCutoffFreq := SmoothedValue.init }

/-- The results of the double precision `<cmath>` functions where rounding or
underflow makes them differ from the real functions: `pow (10, y)` underflows to
zero for `y ≤ -324`, `std::sqrt (0)` is zero, and for `|x| ≤ 2 ^ (-27)` the cosine
rounds to one and the sine to `x`.  `pi` is the double nearest to pi.  Arguments
outside these ranges are not described; the value written for them is one. -/
def doubleMathLib : MathLib ℚ :=
  { pi := 884279719003555 / 281474976710656
    sin := fun x => if |x| ≤ 1 / 2 ^ 27 then x else 1
    cos := fun x => 1
    sqrt := fun x => if x = 0 then 0 else 1
    pow := fun b y => if b = 10 ∧ y ≤ -324 then 0 else 1 }

/-- A LowShelf filter with the default sampling rate and `Q`, a cutoff of
`1e-5` Hz and a gain of `-20000` dB. -/
def gainUnderflowState : MultiFilter ℚ (SmoothedValue ℚ) :=
  { MultiFilter.new SmoothedValue.smoother 0 with
    filterType := FilterType.LowShelf
    cutoffFrequency := 1 / 100000
    gainDB := -20000 }

/-! ## Lemmas -/

section Lemmas

variable (m : MathLib F) (sv : Smoother F S) (s : MultiFilter F S)

theorem rawCoefficients_frame :
    (rawCoefficients m s).samplingRate = s.samplingRate ∧
    (rawCoefficients m s).cutoffFrequency = s.cutoffFrequency ∧
    (rawCoefficients m s).Q = s.Q ∧
    (rawCoefficients m s).gainDB = s.gainDB ∧
    (rawCoefficients m s).filterType = s.filterType ∧
    (rawCoefficients m s).prevX1 = s.prevX1 ∧
    (rawCoefficients m s).prevX2 = s.prevX2 ∧
    (rawCoefficients m s).prevY1 = s.prevY1 ∧
    (rawCoefficients m s).prevY2 = s.prevY2 ∧
    (rawCoefficients m s).smoothedCutoffFreq = s.smoothedCutoffFreq := by
  unfold rawCoefficients
  simp only []
  split_ifs <;> simp

theorem updateCoefficients_frame :
    (updateCoefficients m s).samplingRate = s.samplingRate ∧
    (updateCoefficients m s).cutoffFrequency = s.cutoffFrequency ∧
    (updateCoefficients m s).Q = s.Q ∧
    (updateCoefficients m s).gainDB = s.gainDB ∧
    (updateCoefficients m s).filterType = s.filterType ∧
    (updateCoefficients m s).prevX1 = s.prevX1 ∧
    (updateCoefficients m s).prevX2 = s.prevX2 ∧
    (updateCoefficients m s).prevY1 = s.prevY1 ∧
    (updateCoefficients m s).prevY2 = s.prevY2 ∧
    (updateCoefficients m s).smoothedCutoffFreq = s.smoothedCutoffFreq := by
  simpa [updateCoefficients] using rawCoefficients_frame m s

@[simp] theorem updateCoefficients_samplingRate :
    (updateCoefficients m s).samplingRate = s.samplingRate := (updateCoefficients_frame m s).1

@[simp] theorem updateCoefficients_cutoffFrequency :
    (updateCoefficients m s).cutoffFrequency = s.cutoffFrequency := (updateCoefficients_frame m s).2.1

@[simp] theorem updateCoefficients_Q :
    (updateCoefficients m s).Q = s.Q := (updateCoefficients_frame m s).2.2.1

@[simp] theorem updateCoefficients_gainDB :
    (updateCoefficients m s).gainDB = s.gainDB := (updateCoefficients_frame m s).2.2.2.1

@[simp] theorem updateCoefficients_filterType :
    (updateCoefficients m s).filterType = s.filterType := (updateCoefficients_frame m s).2.2.2.2.1

@[simp] theorem updateCoefficients_prevX1 :
    (updateCoefficients m s).prevX1 = s.prevX1 := (updateCoefficients_frame m s).2.2.2.2.2.1

@[simp] theorem updateCoefficients_prevX2 :
    (updateCoefficients m s).prevX2 = s.prevX2 := (updateCoefficients_frame m s).2.2.2.2.2.2.1

@[simp] theorem updateCoefficients_prevY1 :
    (updateCoefficients m s).prevY1 = s.prevY1 := (updateCoefficients_frame m s).2.2.2.2.2.2.2.1

@[simp] theorem updateCoefficients_prevY2 :
    (updateCoefficients m s).prevY2 = s.prevY2 := (updateCoefficients_frame m s).2.2.2.2.2.2.2.2.1

@[simp] theorem updateCoefficients_smoothedCutoffFreq :
    (updateCoefficients m s).smoothedCutoffFreq = s.smoothedCutoffFreq :=
  (updateCoefficients_frame m s).2.2.2.2.2.2.2.2.2

/-- The registers `processSample` leaves: the input, the previous `prevX1`, the
returned output, the previous `prevY1`. -/
theorem processSample_registers (x : F) :
    (processSample m sv s x).2.prevX1 = x ∧
    (processSample m sv s x).2.prevX2 = s.prevX1 ∧
    (processSample m sv s x).2.prevY1 = (processSample m sv s x).1 ∧
    (processSample m sv s x).2.prevY2 = s.prevY1 := by
  unfold processSample
  by_cases h : sv.isSmoothing s.smoothedCutoffFreq = true <;> simp [h]

/-- At rest `processSample` only shifts the registers. -/
theorem processSample_rest (x : F) (h : sv.isSmoothing s.smoothedCutoffFreq = false) :
    (processSample m sv s x).2 =
      { s with
        prevX2 := s.prevX1
        prevX1 := x
        prevY2 := s.prevY1
        prevY1 := s.b0 * x + s.b1 * s.prevX1 + s.b2 * s.prevX2 - s.a1 * s.prevY1 - s.a2 * s.prevY2 } := by
  simp [processSample, h]

/-- After two or more calls the registers hold the last two inputs and outputs. -/
theorem stateAfter_registers (u : ℕ → F) (k : ℕ) :
    (stateAfter m sv s u (k + 2)).prevX1 = u (k + 1) ∧
    (stateAfter m sv s u (k + 2)).prevX2 = u k ∧
    (stateAfter m sv s u (k + 2)).prevY1 = outputAt m sv s u (k + 1) ∧
    (stateAfter m sv s u (k + 2)).prevY2 = outputAt m sv s u k := by
  have h1 := processSample_registers m sv (stateAfter m sv s u (k + 1)) (u (k + 1))
  have h0 := processSample_registers m sv (stateAfter m sv s u k) (u k)
  have e1 : stateAfter m sv s u (k + 2)
      = (processSample m sv (stateAfter m sv s u (k + 1)) (u (k + 1))).2 := rfl
  have e0 : stateAfter m sv s u (k + 1)
      = (processSample m sv (stateAfter m sv s u k) (u k)).2 := rfl
  refine ⟨?_, ?_, ?_, ?_⟩
  · rw [e1, h1.1]
  · rw [e1, h1.2.1, e0, h0.1]
  · rw [e1, h1.2.2.1]; rfl
  · rw [e1, h1.2.2.2, e0, h0.2.2.1]; rfl

/-- At rest the calls of `processSample` leave the smoother and the coefficients
as they are. -/
theorem stateAfter_rest (u : ℕ → F) (h : sv.isSmoothing s.smoothedCutoffFreq = false) (n : ℕ) :
    (stateAfter m sv s u n).smoothedCutoffFreq = s.smoothedCutoffFreq ∧
    (stateAfter m sv s u n).cutoffFrequency = s.cutoffFrequency ∧
    (stateAfter m sv s u n).samplingRate = s.samplingRate ∧
    (stateAfter m sv s u n).Q = s.Q ∧
    (stateAfter m sv s u n).gainDB = s.gainDB ∧
    (stateAfter m sv s u n).filterType = s.filterType ∧
    (stateAfter m sv s u n).b0 = s.b0 ∧
    (stateAfter m sv s u n).b1 = s.b1 ∧
    (stateAfter m sv s u n).b2 = s.b2 ∧
    (stateAfter m sv s u n).a0 = s.a0 ∧
    (stateAfter m sv s u n).a1 = s.a1 ∧
    (stateAfter m sv s u n).a2 = s.a2 := by
  induction n with
  | zero => simp [stateAfter]
  | succ n ih =>
    have hr : sv.isSmoothing (stateAfter m sv s u n).smoothedCutoffFreq = false := by
      rw [ih.1]; exact h
    have e : stateAfter m sv s u (n + 1)
        = (processSample m sv (stateAfter m sv s u n) (u n)).2 := rfl
    rw [e, processSample_rest m sv _ _ hr]
    exact ih

/-- At rest the output of a call is the difference equation on the state the
call finds. -/
theorem outputAt_rest (u : ℕ → F) (h : sv.isSmoothing s.smoothedCutoffFreq = false) (n : ℕ) :
    outputAt m sv s u n =
      s.b0 * u n + s.b1 * (stateAfter m sv s u n).prevX1 + s.b2 * (stateAfter m sv s u n).prevX2
        - s.a1 * (stateAfter m sv s u n).prevY1 - s.a2 * (stateAfter m sv s u n).prevY2 := by
  have hs := stateAfter_rest m sv s u h n
  have hr : sv.isSmoothing (stateAfter m sv s u n).smoothedCutoffFreq = false := by
    rw [hs.1]; exact h
  unfold outputAt
  simp only [processSample, hr, Bool.false_eq_true, if_false]
  rw [hs.2.2.2.2.2.2.1, hs.2.2.2.2.2.2.2.1, hs.2.2.2.2.2.2.2.2.1, hs.2.2.2.2.2.2.2.2.2.2.1,
    hs.2.2.2.2.2.2.2.2.2.2.2]

/-- At rest the outputs obey the difference equation on the stream itself. -/
theorem outputAt_rest_recurrence (u : ℕ → F) (h : sv.isSmoothing s.smoothedCutoffFreq = false)
    (k : ℕ) :
    outputAt m sv s u (k + 2) =
      s.b0 * u (k + 2) + s.b1 * u (k + 1) + s.b2 * u k
        - s.a1 * outputAt m sv s u (k + 1) - s.a2 * outputAt m sv s u k := by
  have hr := stateAfter_registers m sv s u k
  rw [outputAt_rest m sv s u h (k + 2), hr.1, hr.2.1, hr.2.2.1, hr.2.2.2]

/-- At rest, the first two outputs in terms of the initial registers. -/
theorem outputAt_rest_zero_one (u : ℕ → F) (h : sv.isSmoothing s.smoothedCutoffFreq = false) :
    outputAt m sv s u 0 =
        s.b0 * u 0 + s.b1 * s.prevX1 + s.b2 * s.prevX2 - s.a1 * s.prevY1 - s.a2 * s.prevY2 ∧
    outputAt m sv s u 1 =
        s.b0 * u 1 + s.b1 * u 0 + s.b2 * s.prevX1
          - s.a1 * outputAt m sv s u 0 - s.a2 * s.prevY1 := by
  have h0 := outputAt_rest m sv s u h 0
  have h1 := outputAt_rest m sv s u h 1
  have hr := processSample_registers m sv s (u 0)
  have e : stateAfter m sv s u 1 = (processSample m sv s (u 0)).2 := rfl
  have e0 : stateAfter m sv s u 0 = s := rfl
  have o0 : outputAt m sv s u 0 = (processSample m sv s (u 0)).1 := rfl
  refine ⟨by rw [h0, e0], ?_⟩
  rw [h1, e, hr.1, hr.2.1, hr.2.2.1, hr.2.2.2, o0]

/-- The coefficients `updateCoefficients` stores for an enumerator are the cookbook
coefficients of its shape, divided by the raw `a0`. -/
theorem updateCoefficients_stores (shape : Shape) (hft : s.filterType = shape.toFilterType) :
    StoresDerivation m (updateCoefficients m s) shape
      s.cutoffFrequency s.samplingRate s.Q s.gainDB := by
  unfold StoresDerivation
  cases shape <;>
    simp [updateCoefficients, rawCoefficients, cookbook, hft, Shape.toFilterType,
      FilterType.LowPass, FilterType.HighPass, FilterType.BandPass, FilterType.Notch,
      FilterType.HighShelf, FilterType.LowShelf]

/-- Whatever state `updateCoefficients` runs on, it leaves consistent coefficients. -/
theorem updateCoefficients_consistent : CoefficientsConsistent m (updateCoefficients m s) := by
  intro shape hft
  have h := updateCoefficients_stores m s shape (by simpa using hft)
  simpa using h

/-- Consistency only reads the parameters and the five normalised coefficients. -/
theorem consistent_congr (t : MultiFilter F S)
    (h1 : t.samplingRate = s.samplingRate) (h2 : t.cutoffFrequency = s.cutoffFrequency)
    (h3 : t.Q = s.Q) (h4 : t.gainDB = s.gainDB) (h5 : t.filterType = s.filterType)
    (h6 : t.b0 = s.b0) (h7 : t.b1 = s.b1) (h8 : t.b2 = s.b2) (h9 : t.a1 = s.a1)
    (h10 : t.a2 = s.a2) (h : CoefficientsConsistent m s) : CoefficientsConsistent m t := by
  intro shape hft
  have := h shape (by rw [← h5]; exact hft)
  unfold StoresDerivation at this ⊢
  rw [h1, h2, h3, h4, h6, h7, h8, h9, h10]
  exact this

/-- A call of `processSample` keeps consistent coefficients consistent. -/
theorem processSample_consistent (x : F) (h : CoefficientsConsistent m s) :
    CoefficientsConsistent m (processSample m sv s x).2 := by
  by_cases hs : sv.isSmoothing s.smoothedCutoffFreq = true
  · refine consistent_congr m
      (updateCoefficients m { s with
        cutoffFrequency := (sv.getNextValue s.smoothedCutoffFreq).1
        smoothedCutoffFreq := (sv.getNextValue s.smoothedCutoffFreq).2 }) _
      ?_ ?_ ?_ ?_ ?_ ?_ ?_ ?_ ?_ ?_ (updateCoefficients_consistent m _) <;>
      simp [processSample, hs]
  · refine consistent_congr m s _ ?_ ?_ ?_ ?_ ?_ ?_ ?_ ?_ ?_ ?_ h <;> simp [processSample, hs]

/-- A call that ends in `updateCoefficients ()` leaves consistent coefficients. -/
theorem apply_derives_consistent (c : Call F) (hc : c.derives = true) :
    CoefficientsConsistent m (c.apply m sv s) := by
  cases c <;> simp [Call.derives] at hc <;>
    simp only [Call.apply, setSamplingRate, setResonans, setGain, setFilterType] <;>
    exact updateCoefficients_consistent m _

/-- No call breaks consistency. -/
theorem apply_preserves_consistent (c : Call F) (h : CoefficientsConsistent m s) :
    CoefficientsConsistent m (c.apply m sv s) := by
  by_cases hc : c.derives = true
  · exact apply_derives_consistent m sv s c hc
  · cases c <;> simp [Call.derives] at hc
    · exact h
    · exact processSample_consistent m sv s _ h

/-- After a call sequence that contains a deriving call the coefficients are
consistent, whatever the state the sequence started from. -/
theorem runCalls_consistent (cs : List (Call F)) (h : ∃ c ∈ cs, c.derives = true) :
    CoefficientsConsistent m (runCalls m sv s cs) := by
  induction cs using List.reverseRecOn with
  | nil => simp at h
  | append_singleton cs c ih =>
    have e : runCalls m sv s (cs ++ [c]) = c.apply m sv (runCalls m sv s cs) := by
      simp [runCalls, List.foldl_append]
    rw [e]
    by_cases hc : c.derives = true
    · exact apply_derives_consistent m sv _ c hc
    · apply apply_preserves_consistent
      apply ih
      obtain ⟨d, hd, hdd⟩ := h
      rcases List.mem_append.mp hd with hd | hd
      · exact ⟨d, hd, hdd⟩
      · simp at hd
        subst hd
        exact absurd hdd hc

/-- While smoothing, a call of `processSample` ends in `updateCoefficients ()`. -/
theorem processSample_smoothing_consistent (x : F)
    (hs : sv.isSmoothing s.smoothedCutoffFreq = true) :
    CoefficientsConsistent m (processSample m sv s x).2 := by
  refine consistent_congr m
    (updateCoefficients m { s with
      cutoffFrequency := (sv.getNextValue s.smoothedCutoffFreq).1
      smoothedCutoffFreq := (sv.getNextValue s.smoothedCutoffFreq).2 }) _
    ?_ ?_ ?_ ?_ ?_ ?_ ?_ ?_ ?_ ?_ (updateCoefficients_consistent m _) <;>
    simp [processSample, hs]

/-- The function `processSample` never writes `samplingRate`, `Q`, `gainDB` or
`filterType`. -/
theorem processSample_params (x : F) :
    (processSample m sv s x).2.samplingRate = s.samplingRate ∧
    (processSample m sv s x).2.Q = s.Q ∧
    (processSample m sv s x).2.gainDB = s.gainDB ∧
    (processSample m sv s x).2.filterType = s.filterType := by
  unfold processSample
  by_cases h : sv.isSmoothing s.smoothedCutoffFreq = true <;> simp [h]

theorem stateAfter_params (u : ℕ → F) (n : ℕ) :
    (stateAfter m sv s u n).samplingRate = s.samplingRate ∧
    (stateAfter m sv s u n).Q = s.Q ∧
    (stateAfter m sv s u n).gainDB = s.gainDB ∧
    (stateAfter m sv s u n).filterType = s.filterType := by
  induction n with
  | zero => simp [stateAfter]
  | succ n ih =>
    have h := processSample_params m sv (stateAfter m sv s u n) (u n)
    have e : stateAfter m sv s u (n + 1)
        = (processSample m sv (stateAfter m sv s u n) (u n)).2 := rfl
    rw [e, h.1, h.2.1, h.2.2.1, h.2.2.2]
    exact ih

/-- Processing `n + 1` samples is processing the first, then the other `n`. -/
theorem stateAfter_succ_left (u : ℕ → F) (n : ℕ) :
    stateAfter m sv s u (n + 1) =
      stateAfter m sv (processSample m sv s (u 0)).2 (fun i => u (i + 1)) n := by
  induction n with
  | zero => rfl
  | succ n ih =>
    show (processSample m sv (stateAfter m sv s u (n + 1)) (u (n + 1))).2 = _
    rw [ih]
    rfl

/-- Processing `n + j` samples is processing `n`, then `j` more. -/
theorem stateAfter_add (u : ℕ → F) (n j : ℕ) :
    stateAfter m sv s u (n + j) =
      stateAfter m sv (stateAfter m sv s u n) (fun i => u (n + i)) j := by
  induction j with
  | zero => rfl
  | succ j ih =>
    show (processSample m sv (stateAfter m sv s u (n + j)) (u (n + j))).2 = _
    rw [ih]
    rfl

end Lemmas

section Ramp

variable (m : MathLib F) (s : MultiFilter F (SmoothedValue F))

/-- One call of `processSample` while the linear smoother has steps left: a step is
used up, the target stays, and the last step puts the cutoff on the target. -/
theorem processSample_ramp_step (x : F) (h : 0 < s.smoothedCutoffFreq.countdown) :
    (processSample m SmoothedValue.smoother s x).2.smoothedCutoffFreq.countdown
        = s.smoothedCutoffFreq.countdown - 1 ∧
    (processSample m SmoothedValue.smoother s x).2.smoothedCutoffFreq.target
        = s.smoothedCutoffFreq.target ∧
    (s.smoothedCutoffFreq.countdown = 1 →
      (processSample m SmoothedValue.smoother s x).2.cutoffFrequency
        = s.smoothedCutoffFreq.target) := by
  by_cases h1 : 0 < s.smoothedCutoffFreq.countdown - 1
  · refine ⟨?_, ?_, ?_⟩ <;>
      simp [processSample, SmoothedValue.smoother, SmoothedValue.isSmoothing,
        SmoothedValue.getNextValue, h, h1]
    intro h2
    omega
  · refine ⟨?_, ?_, ?_⟩ <;>
      simp [processSample, SmoothedValue.smoother, SmoothedValue.isSmoothing,
        SmoothedValue.getNextValue, h, h1]

/-- A ramp with `n + 1` steps left ends after `n + 1` calls of `processSample`: the
cutoff is the target, the smoother is at rest, the coefficients are derived. -/
theorem ramp_lands (n : ℕ) : ∀ (s : MultiFilter F (SmoothedValue F)) (u : ℕ → F),
    s.smoothedCutoffFreq.countdown = (n : ℤ) + 1 →
    (stateAfter m SmoothedValue.smoother s u (n + 1)).cutoffFrequency
        = s.smoothedCutoffFreq.target ∧
    (stateAfter m SmoothedValue.smoother s u (n + 1)).smoothedCutoffFreq.countdown = 0 ∧
    CoefficientsConsistent m (stateAfter m SmoothedValue.smoother s u (n + 1)) := by
  induction n with
  | zero =>
    intro s u h
    have hpos : 0 < s.smoothedCutoffFreq.countdown := by rw [h]; norm_num
    have hstep := processSample_ramp_step m s (u 0) hpos
    have hc := processSample_smoothing_consistent m SmoothedValue.smoother s (u 0)
      (by simp [SmoothedValue.smoother, SmoothedValue.isSmoothing, hpos])
    have e : stateAfter m SmoothedValue.smoother s u (0 + 1)
        = (processSample m SmoothedValue.smoother s (u 0)).2 := rfl
    rw [e]
    refine ⟨hstep.2.2 (by rw [h]; norm_num), ?_, hc⟩
    rw [hstep.1, h]
    norm_num
  | succ n ih =>
    intro s u h
    have hpos : 0 < s.smoothedCutoffFreq.countdown := by rw [h]; positivity
    have hstep := processSample_ramp_step m s (u 0) hpos
    rw [stateAfter_succ_left]
    have h' : (processSample m SmoothedValue.smoother s (u 0)).2.smoothedCutoffFreq.countdown
        = (n : ℤ) + 1 := by
      rw [hstep.1, h]
      push_cast
      ring
    have := ih (processSample m SmoothedValue.smoother s (u 0)).2 (fun i => u (i + 1)) h'
    rw [hstep.2.1] at this
    exact this

/-- A smoother of a fresh filter that was given a target before any ramp length
stays at rest, also after `reset`. -/
theorem init_setTarget_reset_rest (t rate : F) :
    SmoothedValue.isSmoothing
      (SmoothedValue.reset (SmoothedValue.setTargetValue (SmoothedValue.init : SmoothedValue F) t)
        rate (5 / 100)) = false := by
  simp [SmoothedValue.isSmoothing, SmoothedValue.reset, SmoothedValue.setCurrentAndTargetValue]

/-- A cutoff pushed into a fresh filter before the sample rate never reaches
`cutoffFrequency`: it stays at the default and the smoother stays at rest. -/
theorem cutoff_before_rate_stays_default (b0 t rate : F) (u : ℕ → F) (n : ℕ) :
    (stateAfter m SmoothedValue.smoother
      (setSamplingRate m SmoothedValue.smoother
        (setCutoffFrequency SmoothedValue.smoother (MultiFilter.new SmoothedValue.smoother b0) t)
        rate) u n).cutoffFrequency = 1000 ∧
    CoefficientsConsistent m (stateAfter m SmoothedValue.smoother
      (setSamplingRate m SmoothedValue.smoother
        (setCutoffFrequency SmoothedValue.smoother (MultiFilter.new SmoothedValue.smoother b0) t)
        rate) u n) := by
  have hrest : (SmoothedValue.smoother (F := F)).isSmoothing
      (setSamplingRate m SmoothedValue.smoother
        (setCutoffFrequency SmoothedValue.smoother (MultiFilter.new SmoothedValue.smoother b0) t)
        rate).smoothedCutoffFreq = false := by
    simpa [setSamplingRate, setCutoffFrequency, MultiFilter.new, SmoothedValue.smoother]
      using init_setTarget_reset_rest t rate
  have h := stateAfter_rest m SmoothedValue.smoother _ u hrest n
  refine ⟨?_, ?_⟩
  · rw [h.2.1]
    simp [setSamplingRate, setCutoffFrequency, MultiFilter.new]
  · refine consistent_congr m _ _ h.2.2.1 h.2.1 h.2.2.2.1 h.2.2.2.2.1 h.2.2.2.2.2.1
      h.2.2.2.2.2.2.1 h.2.2.2.2.2.2.2.1 h.2.2.2.2.2.2.2.2.1 h.2.2.2.2.2.2.2.2.2.2.1
      h.2.2.2.2.2.2.2.2.2.2.2 ?_
    exact updateCoefficients_consistent m _

/-- With the real sine, the normalised LowPass `a2` at 44100 Hz and Q 0.707 differs
between the cutoffs 1000 and 2000. -/
theorem lowPass_a2_differs :
    (cookbook (⟨Real.pi, Real.sin, Real.cos, Real.sqrt, fun x y => x ^ y⟩ : MathLib ℝ)
        Shape.lowPass 1000 44100 (707 / 1000) 0).a2 /
      (cookbook (⟨Real.pi, Real.sin, Real.cos, Real.sqrt, fun x y => x ^ y⟩ : MathLib ℝ)
        Shape.lowPass 1000 44100 (707 / 1000) 0).a0 ≠
    (cookbook (⟨Real.pi, Real.sin, Real.cos, Real.sqrt, fun x y => x ^ y⟩ : MathLib ℝ)
        Shape.lowPass 2000 44100 (707 / 1000) 0).a2 /
      (cookbook (⟨Real.pi, Real.sin, Real.cos, Real.sqrt, fun x y => x ^ y⟩ : MathLib ℝ)
        Shape.lowPass 2000 44100 (707 / 1000) 0).a0 := by
  simp only [cookbook]
  have hpi := Real.pi_pos
  have h1 : 0 < Real.sin (2 * Real.pi * 1000 / 44100) :=
    Real.sin_pos_of_pos_of_lt_pi (by positivity) (by linarith)
  have h12 : Real.sin (2 * Real.pi * 1000 / 44100) < Real.sin (2 * Real.pi * 2000 / 44100) :=
    Real.sin_lt_sin_of_lt_of_le_pi_div_two (by linarith) (by linarith) (by linarith)
  have e1 : Real.sin (2 * Real.pi * 1000 / 44100) / (2 * (707 / 1000))
      = Real.sin (2 * Real.pi * 1000 / 44100) * (1000 / 1414) := by ring
  have e2 : Real.sin (2 * Real.pi * 2000 / 44100) / (2 * (707 / 1000))
      = Real.sin (2 * Real.pi * 2000 / 44100) * (1000 / 1414) := by ring
  rw [e1, e2]
  intro h
  rw [div_eq_div_iff (by linarith) (by linarith)] at h
  nlinarith

/-- The ramp case: a positive ramp length and a new target. -/
theorem settledAt_of_ramp (rate t : F) (u : ℕ → F) (hN : 1 ≤ ⌊(5 / 100 : F) * rate⌋)
    (ht : t ≠ s.smoothedCutoffFreq.target) :
    SettledAt m SmoothedValue.smoother
      (setCutoffFrequency SmoothedValue.smoother
        (setSamplingRate m SmoothedValue.smoother s rate) t)
      u ⌊(5 / 100 : F) * rate⌋.toNat t rate s.Q s.gainDB s.filterType := by
  obtain ⟨n, hn⟩ : ∃ n : ℕ, ⌊(5 / 100 : F) * rate⌋ = (n : ℤ) + 1 :=
    ⟨(⌊(5 / 100 : F) * rate⌋ - 1).toNat, by omega⟩
  have hnat : ⌊(5 / 100 : F) * rate⌋.toNat = n + 1 := by omega
  have hnot : ¬ ((n : ℤ) + 1 ≤ 0) := by omega
  have hcd : (setCutoffFrequency SmoothedValue.smoother
      (setSamplingRate m SmoothedValue.smoother s rate) t).smoothedCutoffFreq.countdown
        = (n : ℤ) + 1 := by
    simp [setSamplingRate, setCutoffFrequency, SmoothedValue.smoother, SmoothedValue.reset,
      SmoothedValue.setCurrentAndTargetValue, SmoothedValue.setTargetValue, ht, hn, hnot]
  have htg : (setCutoffFrequency SmoothedValue.smoother
      (setSamplingRate m SmoothedValue.smoother s rate) t).smoothedCutoffFreq.target = t := by
    simp [setSamplingRate, setCutoffFrequency, SmoothedValue.smoother, SmoothedValue.reset,
      SmoothedValue.setCurrentAndTargetValue, SmoothedValue.setTargetValue, ht, hn, hnot]
  have hland := ramp_lands m n _ u hcd
  rw [htg] at hland
  have hpar := stateAfter_params m SmoothedValue.smoother
    (setCutoffFrequency SmoothedValue.smoother
      (setSamplingRate m SmoothedValue.smoother s rate) t) u (n + 1)
  have hrate : (setCutoffFrequency SmoothedValue.smoother
      (setSamplingRate m SmoothedValue.smoother s rate) t).samplingRate = rate := by
    simp [setSamplingRate, setCutoffFrequency]
  have hQ : (setCutoffFrequency SmoothedValue.smoother
      (setSamplingRate m SmoothedValue.smoother s rate) t).Q = s.Q := by
    simp [setSamplingRate, setCutoffFrequency]
  have hg : (setCutoffFrequency SmoothedValue.smoother
      (setSamplingRate m SmoothedValue.smoother s rate) t).gainDB = s.gainDB := by
    simp [setSamplingRate, setCutoffFrequency]
  have hft : (setCutoffFrequency SmoothedValue.smoother
      (setSamplingRate m SmoothedValue.smoother s rate) t).filterType = s.filterType := by
    simp [setSamplingRate, setCutoffFrequency]
  rw [hrate, hQ, hg, hft] at hpar
  have hrest : SmoothedValue.smoother.isSmoothing
      (stateAfter m SmoothedValue.smoother
        (setCutoffFrequency SmoothedValue.smoother
          (setSamplingRate m SmoothedValue.smoother s rate) t)
        u (n + 1)).smoothedCutoffFreq = false := by
    show decide ((0 : ℤ) < _) = false
    rw [hland.2.1]
    rfl
  unfold SettledAt
  rw [hnat]
  refine ⟨hland.1, hrest, ?_, ?_⟩
  · intro shape hs
    have := hland.2.2 shape (by rw [hpar.2.2.2]; exact hs)
    rw [hland.1, hpar.1, hpar.2.1, hpar.2.2.1] at this
    exact this
  · intro j
    rw [stateAfter_add]
    have hj := stateAfter_rest m SmoothedValue.smoother _ (fun i => u (n + 1 + i)) hrest j
    exact ⟨by rw [hj.2.1, hland.1], hj.2.2.2.2.2.2.1, hj.2.2.2.2.2.2.2.1, hj.2.2.2.2.2.2.2.2.1,
      hj.2.2.2.2.2.2.2.2.2.2.1, hj.2.2.2.2.2.2.2.2.2.2.2⟩

/-- The case without a ramp (no ramp length, or the target the smoother holds) when
the cutoff in force is the target already. -/
theorem settledAt_of_rest (rate t : F) (u : ℕ → F)
    (hr : ¬ (1 ≤ ⌊(5 / 100 : F) * rate⌋ ∧ t ≠ s.smoothedCutoffFreq.target))
    (hc : s.cutoffFrequency = t) :
    SettledAt m SmoothedValue.smoother
      (setCutoffFrequency SmoothedValue.smoother
        (setSamplingRate m SmoothedValue.smoother s rate) t)
      u ⌊(5 / 100 : F) * rate⌋.toNat t rate s.Q s.gainDB s.filterType := by
  have hrest : (SmoothedValue.smoother (F := F)).isSmoothing
      (setCutoffFrequency SmoothedValue.smoother
        (setSamplingRate m SmoothedValue.smoother s rate) t).smoothedCutoffFreq = false := by
    by_cases ht : t = s.smoothedCutoffFreq.target
    · simp [setSamplingRate, setCutoffFrequency, SmoothedValue.smoother, SmoothedValue.reset,
        SmoothedValue.setCurrentAndTargetValue, SmoothedValue.setTargetValue,
        SmoothedValue.isSmoothing, ht]
    · have hN : ⌊(5 / 100 : F) * rate⌋ ≤ 0 := by
        by_contra hcon
        exact hr ⟨by omega, ht⟩
      simp [setSamplingRate, setCutoffFrequency, SmoothedValue.smoother, SmoothedValue.reset,
        SmoothedValue.setCurrentAndTargetValue, SmoothedValue.setTargetValue,
        SmoothedValue.isSmoothing, ht, hN]
  have hcons : CoefficientsConsistent m
      (setCutoffFrequency SmoothedValue.smoother
        (setSamplingRate m SmoothedValue.smoother s rate) t) :=
    consistent_congr m _ _ rfl rfl rfl rfl rfl rfl rfl rfl rfl rfl
      (updateCoefficients_consistent m _)
  have hcut : (setCutoffFrequency SmoothedValue.smoother
      (setSamplingRate m SmoothedValue.smoother s rate) t).cutoffFrequency = t := by
    simp [setSamplingRate, setCutoffFrequency, hc]
  unfold SettledAt
  refine ⟨?_, ?_, ?_, ?_⟩
  · rw [(stateAfter_rest m SmoothedValue.smoother _ u hrest _).2.1, hcut]
  · rw [(stateAfter_rest m SmoothedValue.smoother _ u hrest _).1]
    exact hrest
  · intro shape hs
    have hk := stateAfter_rest m SmoothedValue.smoother _ u hrest ⌊(5 / 100 : F) * rate⌋.toNat
    have hd := hcons shape (by simpa [setSamplingRate, setCutoffFrequency] using hs)
    unfold StoresDerivation at hd ⊢
    rw [hk.2.2.2.2.2.2.1, hk.2.2.2.2.2.2.2.1, hk.2.2.2.2.2.2.2.2.1, hk.2.2.2.2.2.2.2.2.2.2.1,
      hk.2.2.2.2.2.2.2.2.2.2.2]
    simpa [setSamplingRate, setCutoffFrequency, hc] using hd
  · intro j
    have hj := stateAfter_rest m SmoothedValue.smoother _ u hrest
      (⌊(5 / 100 : F) * rate⌋.toNat + j)
    have hk := stateAfter_rest m SmoothedValue.smoother _ u hrest ⌊(5 / 100 : F) * rate⌋.toNat
    refine ⟨by rw [hj.2.1, hcut], ?_, ?_, ?_, ?_, ?_⟩
    · rw [hj.2.2.2.2.2.2.1, hk.2.2.2.2.2.2.1]
    · rw [hj.2.2.2.2.2.2.2.1, hk.2.2.2.2.2.2.2.1]
    · rw [hj.2.2.2.2.2.2.2.2.1, hk.2.2.2.2.2.2.2.2.1]
    · rw [hj.2.2.2.2.2.2.2.2.2.2.1, hk.2.2.2.2.2.2.2.2.2.2.1]
    · rw [hj.2.2.2.2.2.2.2.2.2.2.2, hk.2.2.2.2.2.2.2.2.2.2.2]

end Ramp

section Block

variable (m : MathLib F) (sv : Smoother F S)

theorem processChannel_snd (f : MultiFilter F S) (xs : List F) :
    (processChannel m sv f xs).2 = xs := by
  induction xs generalizing f with
  | nil => rfl
  | cons x xs ih => simp [processChannel, ih]

/-- The filter a channel leaves is the filter after `processSample` on every sample,
in order. -/
theorem processChannel_fst (f : MultiFilter F S) (xs : List F) :
    (processChannel m sv f xs).1 = xs.foldl (fun g x => (processSample m sv g x).2) f := by
  induction xs generalizing f with
  | nil => rfl
  | cons x xs ih => simp [processChannel, ih]

theorem processInputs_snd (n : ℕ) (fs : List (MultiFilter F S)) (chs : List (List F)) :
    (processInputs m sv n fs chs).2 = chs := by
  induction n generalizing fs chs with
  | zero => simp [processInputs]
  | succ n ih =>
    cases fs with
    | nil => simp [processInputs]
    | cons f fs =>
      cases chs with
      | nil => simp [processInputs]
      | cons ch chs => simp [processInputs, ih, processChannel_snd]

theorem processInputs_fst (n : ℕ) (fs : List (MultiFilter F S)) (chs : List (List F))
    (c : ℕ) (hc : c < n) (f : MultiFilter F S) (ch : List F)
    (hf : fs[c]? = some f) (hch : chs[c]? = some ch) :
    (processInputs m sv n fs chs).1[c]? =
      some (ch.foldl (fun g x => (processSample m sv g x).2) f) := by
  induction n generalizing fs chs c with
  | zero => omega
  | succ n ih =>
    cases fs with
    | nil => simp at hf
    | cons f0 fs =>
      cases chs with
      | nil => simp at hch
      | cons ch0 chs =>
        cases c with
        | zero =>
          simp at hf hch
          subst hf hch
          simp [processInputs, processChannel_fst]
        | succ c =>
          simp at hf hch
          simp only [processInputs, List.getElem?_cons_succ]
          exact ih fs chs c (by omega) hf hch

theorem clearChannels_length (a b i : ℕ) (chs : List (List F)) :
    (clearChannels a b i chs).length = chs.length := by
  induction chs generalizing i with
  | nil => rfl
  | cons ch chs ih => simp [clearChannels, ih]

theorem clearChannels_getElem? (a b i : ℕ) (chs : List (List F)) (c : ℕ) (hc : i + c < a) :
    (clearChannels a b i chs)[c]? = chs[c]? := by
  induction chs generalizing i c with
  | nil => rfl
  | cons ch chs ih =>
    cases c with
    | zero =>
      have : ¬ (a ≤ i ∧ i < b) := by omega
      simp [clearChannels, this]
    | succ c =>
      simp only [clearChannels, List.getElem?_cons_succ]
      exact ih (i + 1) c (by omega)

theorem clearChannels_take (a b i : ℕ) (chs : List (List F)) :
    (clearChannels a b i chs).take (a - i) = chs.take (a - i) := by
  induction chs generalizing i with
  | nil => rfl
  | cons ch chs ih =>
    by_cases h : i < a
    · obtain ⟨k, hk⟩ : ∃ k, a - i = k + 1 := ⟨a - i - 1, by omega⟩
      have hk' : a - (i + 1) = k := by omega
      have hn : ¬ (a ≤ i ∧ i < b) := by omega
      rw [hk]
      simp only [clearChannels, hn, if_false, List.take_succ_cons]
      rw [← hk', ih (i + 1)]
    · have : a - i = 0 := by omega
      simp [this]

end Block

section Algebra

variable (m : MathLib F) (sv : Smoother F S) (s : MultiFilter F S)

/-- For an enumerator the `switch` assigns the cookbook coefficients of its shape. -/
theorem rawCoefficients_cookbook (shape : Shape) (hft : s.filterType = shape.toFilterType) :
    (rawCoefficients m s).b0 =
      (cookbook m shape s.cutoffFrequency s.samplingRate s.Q s.gainDB).b0 ∧
    (rawCoefficients m s).b1 =
      (cookbook m shape s.cutoffFrequency s.samplingRate s.Q s.gainDB).b1 ∧
    (rawCoefficients m s).b2 =
      (cookbook m shape s.cutoffFrequency s.samplingRate s.Q s.gainDB).b2 ∧
    (rawCoefficients m s).a0 =
      (cookbook m shape s.cutoffFrequency s.samplingRate s.Q s.gainDB).a0 ∧
    (rawCoefficients m s).a1 =
      (cookbook m shape s.cutoffFrequency s.samplingRate s.Q s.gainDB).a1 ∧
    (rawCoefficients m s).a2 =
      (cookbook m shape s.cutoffFrequency s.samplingRate s.Q s.gainDB).a2 := by
  cases shape <;>
    simp [rawCoefficients, cookbook, hft, Shape.toFilterType,
      FilterType.LowPass, FilterType.HighPass, FilterType.BandPass, FilterType.Notch,
      FilterType.HighShelf, FilterType.LowShelf]

/-- A value that is no enumerator reaches `default:` and nothing is assigned. -/
theorem rawCoefficients_default (hout : s.filterType < 0 ∨ 5 < s.filterType) :
    rawCoefficients m s = s := by
  have h0 : s.filterType ≠ FilterType.LowPass := by
    intro h
    rw [h] at hout
    exact absurd hout (by decide)
  have h1 : s.filterType ≠ FilterType.HighPass := by
    intro h
    rw [h] at hout
    exact absurd hout (by decide)
  have h2 : s.filterType ≠ FilterType.BandPass := by
    intro h
    rw [h] at hout
    exact absurd hout (by decide)
  have h3 : s.filterType ≠ FilterType.Notch := by
    intro h
    rw [h] at hout
    exact absurd hout (by decide)
  have h4 : s.filterType ≠ FilterType.HighShelf := by
    intro h
    rw [h] at hout
    exact absurd hout (by decide)
  have h5 : s.filterType ≠ FilterType.LowShelf := by
    intro h
    rw [h] at hout
    exact absurd hout (by decide)
  simp [rawCoefficients, h0, h1, h2, h3, h4, h5]

/-- What `updateCoefficients` stores, in terms of the `switch`. -/
theorem updateCoefficients_fields :
    (updateCoefficients m s).b0 = (rawCoefficients m s).b0 / (rawCoefficients m s).a0 ∧
    (updateCoefficients m s).b1 = (rawCoefficients m s).b1 / (rawCoefficients m s).a0 ∧
    (updateCoefficients m s).b2 = (rawCoefficients m s).b2 / (rawCoefficients m s).a0 ∧
    (updateCoefficients m s).a0 = (rawCoefficients m s).a0 ∧
    (updateCoefficients m s).a1 = (rawCoefficients m s).a1 / (rawCoefficients m s).a0 ∧
    (updateCoefficients m s).a2 = (rawCoefficients m s).a2 / (rawCoefficients m s).a0 :=
  ⟨rfl, rfl, rfl, rfl, rfl, rfl⟩

/-- The six coefficients `updateCoefficients` leaves for an enumerator, as a function
of the five parameters alone. -/
theorem updateCoefficients_of_params (shape : Shape) (hft : s.filterType = shape.toFilterType) :
    ((updateCoefficients m s).a0, (updateCoefficients m s).b0, (updateCoefficients m s).b1,
      (updateCoefficients m s).b2, (updateCoefficients m s).a1, (updateCoefficients m s).a2) =
    ((cookbook m shape s.cutoffFrequency s.samplingRate s.Q s.gainDB).a0,
      (cookbook m shape s.cutoffFrequency s.samplingRate s.Q s.gainDB).b0 /
        (cookbook m shape s.cutoffFrequency s.samplingRate s.Q s.gainDB).a0,
      (cookbook m shape s.cutoffFrequency s.samplingRate s.Q s.gainDB).b1 /
        (cookbook m shape s.cutoffFrequency s.samplingRate s.Q s.gainDB).a0,
      (cookbook m shape s.cutoffFrequency s.samplingRate s.Q s.gainDB).b2 /
        (cookbook m shape s.cutoffFrequency s.samplingRate s.Q s.gainDB).a0,
      (cookbook m shape s.cutoffFrequency s.samplingRate s.Q s.gainDB).a1 /
        (cookbook m shape s.cutoffFrequency s.samplingRate s.Q s.gainDB).a0,
      (cookbook m shape s.cutoffFrequency s.samplingRate s.Q s.gainDB).a2 /
        (cookbook m shape s.cutoffFrequency s.samplingRate s.Q s.gainDB).a0) := by
  have h := rawCoefficients_cookbook m s shape hft
  have hf := updateCoefficients_fields m s
  rw [hf.1, hf.2.1, hf.2.2.1, hf.2.2.2.1, hf.2.2.2.2.1, hf.2.2.2.2.2,
    h.1, h.2.1, h.2.2.1, h.2.2.2.1, h.2.2.2.2.1, h.2.2.2.2.2]

/-- The normalised HighPass feed-forward coefficients sum to zero. -/
theorem highPass_dc (hft : s.filterType = FilterType.HighPass) :
    (updateCoefficients m s).b0 + (updateCoefficients m s).b1 + (updateCoefficients m s).b2
      = 0 := by
  have hf := updateCoefficients_fields m s
  have h := rawCoefficients_cookbook m s Shape.highPass hft
  rw [hf.1, hf.2.1, hf.2.2.1, h.1, h.2.1, h.2.2.1, h.2.2.2.1, ← add_div, ← add_div]
  simp only [cookbook]
  have e : (1 + m.cos (2 * m.pi * s.cutoffFrequency / s.samplingRate)) / 2
      + -(1 + m.cos (2 * m.pi * s.cutoffFrequency / s.samplingRate))
      + (1 + m.cos (2 * m.pi * s.cutoffFrequency / s.samplingRate)) / 2 = 0 := by ring
  rw [e, zero_div]

/-- Two states with the same sixteen members are the same state. -/
theorem multiFilter_ext (t : MultiFilter F S)
    (h1 : s.samplingRate = t.samplingRate) (h2 : s.cutoffFrequency = t.cutoffFrequency)
    (h3 : s.Q = t.Q) (h4 : s.gainDB = t.gainDB) (h5 : s.filterType = t.filterType)
    (h6 : s.a0 = t.a0) (h7 : s.a1 = t.a1) (h8 : s.a2 = t.a2) (h9 : s.b0 = t.b0)
    (h10 : s.b1 = t.b1) (h11 : s.b2 = t.b2) (h12 : s.prevX1 = t.prevX1)
    (h13 : s.prevX2 = t.prevX2) (h14 : s.prevY1 = t.prevY1) (h15 : s.prevY2 = t.prevY2)
    (h16 : s.smoothedCutoffFreq = t.smoothedCutoffFreq) : s = t := by
  cases s
  cases t
  simp_all

/-- For an enumerator a second `updateCoefficients ()` in a row changes nothing. -/
theorem updateCoefficients_idempotent (shape : Shape) (hft : s.filterType = shape.toFilterType) :
    updateCoefficients m (updateCoefficients m s) = updateCoefficients m s := by
  have h := updateCoefficients_of_params m (updateCoefficients m s) shape (by simpa using hft)
  have h1 := updateCoefficients_of_params m s shape hft
  simp only [updateCoefficients_cutoffFrequency, updateCoefficients_samplingRate,
    updateCoefficients_Q, updateCoefficients_gainDB] at h
  rw [← h1] at h
  simp only [Prod.mk.injEq] at h
  have hfr := updateCoefficients_frame m (updateCoefficients m s)
  exact multiFilter_ext _ _ hfr.1 hfr.2.1 hfr.2.2.1 hfr.2.2.2.1 hfr.2.2.2.2.1
    h.1 h.2.2.2.2.1 h.2.2.2.2.2 h.2.1 h.2.2.1 h.2.2.2.1
    hfr.2.2.2.2.2.1 hfr.2.2.2.2.2.2.1 hfr.2.2.2.2.2.2.2.1 hfr.2.2.2.2.2.2.2.2.1
    hfr.2.2.2.2.2.2.2.2.2

end Algebra

section Analysis

/-- Under the caller constraints the angular frequency lies strictly between zero
and pi. -/
theorem omega_bounds (c r : ℝ) (hr : 0 < r) (hc0 : 0 < c) (hc1 : c < r / 2) :
    0 < 2 * Real.pi * c / r ∧ 2 * Real.pi * c / r < Real.pi := by
  have hpi := Real.pi_pos
  constructor
  · positivity
  · rw [div_lt_iff₀ hr]
    nlinarith

/-- Strictly between zero and pi the sine is positive and the cosine lies strictly
between minus one and one. -/
theorem sin_cos_bounds (w : ℝ) (h0 : 0 < w) (h1 : w < Real.pi) :
    0 < Real.sin w ∧ -1 < Real.cos w ∧ Real.cos w < 1 := by
  have hs := Real.sin_pos_of_pos_of_lt_pi h0 h1
  have h := Real.sin_sq_add_cos_sq w
  refine ⟨hs, ?_, ?_⟩ <;> nlinarith

/-- With the real functions and the caller constraints the raw cookbook `a0` is
positive for every shape. -/
theorem real_a0_pos (shape : Shape) (c r q g : ℝ) (hr : 0 < r) (hc0 : 0 < c)
    (hc1 : c < r / 2) (hq : 0 < q) :
    0 < (cookbook (⟨Real.pi, Real.sin, Real.cos, Real.sqrt, fun x y => x ^ y⟩ : MathLib ℝ) shape c r q g).a0 := by
  obtain ⟨hw0, hw1⟩ := omega_bounds c r hr hc0 hc1
  obtain ⟨hs, hcl, hcu⟩ := sin_cos_bounds _ hw0 hw1
  have hal : 0 < Real.sin (2 * Real.pi * c / r) / (2 * q) := by positivity
  have hA : (0 : ℝ) < (10 : ℝ) ^ (g / 40) := Real.rpow_pos_of_pos (by norm_num) _
  have hsq : 0 ≤ √((10 : ℝ) ^ (g / 40)) := Real.sqrt_nonneg _
  have hp : 0 ≤ 2 * √((10 : ℝ) ^ (g / 40)) * (Real.sin (2 * Real.pi * c / r) / (2 * q)) := by
    positivity
  cases shape <;> simp only [cookbook]
  · linarith
  · linarith
  · linarith
  · linarith
  · nlinarith [mul_pos hA (by linarith : (0 : ℝ) < 1 + Real.cos (2 * Real.pi * c / r))]
  · nlinarith [mul_pos hA (by linarith : (0 : ℝ) < 1 - Real.cos (2 * Real.pi * c / r))]

/-- With the real functions and the caller constraints the raw `a0` of the `switch`
is positive for every enumerator. -/
theorem rawCoefficients_a0_pos (s : MultiFilter ℝ S) (shape : Shape)
    (hft : s.filterType = shape.toFilterType) (hr : 0 < s.samplingRate)
    (hc0 : 0 < s.cutoffFrequency) (hc1 : s.cutoffFrequency < s.samplingRate / 2)
    (hQ : 0 < s.Q) :
    0 < (rawCoefficients (⟨Real.pi, Real.sin, Real.cos, Real.sqrt, fun x y => x ^ y⟩ : MathLib ℝ) s).a0 := by
  have h := real_a0_pos shape s.cutoffFrequency s.samplingRate s.Q s.gainDB hr hc0 hc1 hQ
  rw [← (rawCoefficients_cookbook _ s shape hft).2.2.2.1] at h
  exact h

end Analysis

/-! ## Claims -/

/-- C1: when the cutoff smoother is at rest, `processSample` returns exactly
`b0*x + b1*prevX1 + b2*prevX2 - a1*prevY1 - a2*prevY2`, computed from the
coefficients and registers held before the call. -/
theorem processSample_difference_equation (m : MathLib F) (sv : Smoother F S)
    (s : MultiFilter F S) (x : F) (hrest : sv.isSmoothing s.smoothedCutoffFreq = false) :
    (processSample m sv s x).1 =
      s.b0 * x + s.b1 * s.prevX1 + s.b2 * s.prevX2 - s.a1 * s.prevY1 - s.a2 * s.prevY2 := by
  simp [processSample, hrest]

/-- Witness for C1: a freshly constructed filter whose `b0` happens to be `1/2`
is at rest and returns `3/2` on the sample `3`. -/
theorem processSample_difference_equation_witness :
    (SmoothedValue.smoother (F := ℝ)).isSmoothing
        (MultiFilter.new SmoothedValue.smoother (1 / 2 : ℝ)).smoothedCutoffFreq = false ∧
      (processSample ⟨Real.pi, Real.sin, Real.cos, Real.sqrt, fun x y => x ^ y⟩
        SmoothedValue.smoother (MultiFilter.new SmoothedValue.smoother (1 / 2 : ℝ)) 3).1 = 3 / 2 := by
  have hrest : (SmoothedValue.smoother (F := ℝ)).isSmoothing
      (MultiFilter.new SmoothedValue.smoother (1 / 2 : ℝ)).smoothedCutoffFreq = false := by
    simp [MultiFilter.new, SmoothedValue.smoother, SmoothedValue.isSmoothing, SmoothedValue.init]
  refine ⟨hrest, ?_⟩
  rw [processSample_difference_equation _ _ _ _ hrest]
  simp [MultiFilter.new]
  norm_num

/-- C2: after `n >= 2` successive `processSample` calls on the inputs
`u 0, ..., u (n-1)`, whatever the initial state (smoothing or at rest), the
registers hold the last two inputs and the last two returned outputs, in order. -/
theorem registers_hold_two_most_recent (m : MathLib F) (sv : Smoother F S)
    (s : MultiFilter F S) (u : ℕ → F) (n : ℕ) (hn : 2 ≤ n) :
    (stateAfter m sv s u n).prevX1 = u (n - 1) ∧
    (stateAfter m sv s u n).prevX2 = u (n - 2) ∧
    (stateAfter m sv s u n).prevY1 = outputAt m sv s u (n - 1) ∧
    (stateAfter m sv s u n).prevY2 = outputAt m sv s u (n - 2) := by
  obtain ⟨k, rfl⟩ : ∃ k, n = k + 2 := ⟨n - 2, by omega⟩
  exact stateAfter_registers m sv s u k

/-- Witness for C2: a filter made smoothing (sample rate 44100, cutoff target 2000)
and fed `10, 20, 30`. -/
theorem registers_hold_two_most_recent_witness :
    2 ≤ 3 ∧
      (stateAfter ⟨Real.pi, Real.sin, Real.cos, Real.sqrt, fun x y => x ^ y⟩ SmoothedValue.smoother
        (setCutoffFrequency SmoothedValue.smoother
          (setSamplingRate ⟨Real.pi, Real.sin, Real.cos, Real.sqrt, fun x y => x ^ y⟩
            SmoothedValue.smoother (MultiFilter.new SmoothedValue.smoother (0 : ℝ)) 44100) 2000)
        (fun n => 10 * ((n : ℝ) + 1)) 3).prevX1 = 30 := by
  refine ⟨by decide, ?_⟩
  rw [(registers_hold_two_most_recent _ _ _ _ 3 (by decide)).1]
  norm_num

/-- C3: for each of the six filter types and all parameters with raw `a0 != 0`,
`updateCoefficients` stores the raw Audio-EQ-Cookbook `b0, b1, b2, a1, a2` each
divided by the raw `a0` (so the leading coefficient `a0 / a0` is one); for LowPass
these are `b0 = b2 = (1 - cos w) / (2 (1 + alpha))`, `b1 = (1 - cos w) / (1 + alpha)`,
`a1 = -2 cos w / (1 + alpha)`, `a2 = (1 - alpha) / (1 + alpha)`. -/
theorem updateCoefficients_normalized_cookbook (m : MathLib F) (s : MultiFilter F S)
    (shape : Shape) (hft : s.filterType = shape.toFilterType)
    (ha0 : (cookbook m shape s.cutoffFrequency s.samplingRate s.Q s.gainDB).a0 ≠ 0) :
    StoresDerivation m (updateCoefficients m s) shape
        s.cutoffFrequency s.samplingRate s.Q s.gainDB ∧
      (cookbook m shape s.cutoffFrequency s.samplingRate s.Q s.gainDB).a0 /
        (cookbook m shape s.cutoffFrequency s.samplingRate s.Q s.gainDB).a0 = 1 ∧
      (shape = Shape.lowPass →
        (updateCoefficients m s).b0 =
            (1 - m.cos (2 * m.pi * s.cutoffFrequency / s.samplingRate)) /
              (2 * (1 + m.sin (2 * m.pi * s.cutoffFrequency / s.samplingRate) / (2 * s.Q))) ∧
        (updateCoefficients m s).b2 =
            (1 - m.cos (2 * m.pi * s.cutoffFrequency / s.samplingRate)) /
              (2 * (1 + m.sin (2 * m.pi * s.cutoffFrequency / s.samplingRate) / (2 * s.Q))) ∧
        (updateCoefficients m s).b1 =
            (1 - m.cos (2 * m.pi * s.cutoffFrequency / s.samplingRate)) /
              (1 + m.sin (2 * m.pi * s.cutoffFrequency / s.samplingRate) / (2 * s.Q)) ∧
        (updateCoefficients m s).a1 =
            -2 * m.cos (2 * m.pi * s.cutoffFrequency / s.samplingRate) /
              (1 + m.sin (2 * m.pi * s.cutoffFrequency / s.samplingRate) / (2 * s.Q)) ∧
        (updateCoefficients m s).a2 =
            (1 - m.sin (2 * m.pi * s.cutoffFrequency / s.samplingRate) / (2 * s.Q)) /
              (1 + m.sin (2 * m.pi * s.cutoffFrequency / s.samplingRate) / (2 * s.Q))) := by
  refine ⟨updateCoefficients_stores m s shape hft, div_self ha0, ?_⟩
  rintro rfl
  have h := updateCoefficients_stores m s Shape.lowPass hft
  unfold StoresDerivation at h
  simp only [cookbook] at h
  refine ⟨?_, ?_, h.2.1, h.2.2.2.1, h.2.2.2.2⟩
  · rw [h.1, div_div]
  · rw [h.2.2.1, div_div]

/-- Witness for C3: the default parameters (LowPass, 44100 Hz, 1000 Hz, Q 0.707)
with the real sine and cosine have raw `a0 = 1 + alpha > 0`. -/
theorem updateCoefficients_normalized_cookbook_witness :
    (cookbook (⟨Real.pi, Real.sin, Real.cos, Real.sqrt, fun x y => x ^ y⟩ : MathLib ℝ)
        Shape.lowPass 1000 44100 (707 / 1000) 0).a0 ≠ 0 ∧
      StoresDerivation (⟨Real.pi, Real.sin, Real.cos, Real.sqrt, fun x y => x ^ y⟩ : MathLib ℝ)
        (updateCoefficients ⟨Real.pi, Real.sin, Real.cos, Real.sqrt, fun x y => x ^ y⟩
          (MultiFilter.new SmoothedValue.smoother (0 : ℝ)))
        Shape.lowPass 1000 44100 (707 / 1000) 0 := by
  have ha0 : (cookbook (⟨Real.pi, Real.sin, Real.cos, Real.sqrt, fun x y => x ^ y⟩ : MathLib ℝ)
      Shape.lowPass 1000 44100 (707 / 1000) 0).a0 ≠ 0 := by
    simp only [cookbook]
    have h := Real.neg_one_le_sin (2 * Real.pi * 1000 / 44100)
    have h2 : Real.sin (2 * Real.pi * 1000 / 44100) / (2 * (707 / 1000))
        = Real.sin (2 * Real.pi * 1000 / 44100) * (1000 / 1414) := by ring
    rw [h2]
    intro h3
    linarith
  exact ⟨ha0, (updateCoefficients_normalized_cookbook
    (⟨Real.pi, Real.sin, Real.cos, Real.sqrt, fun x y => x ^ y⟩ : MathLib ℝ)
    (MultiFilter.new SmoothedValue.smoother (0 : ℝ)) Shape.lowPass rfl ha0).1⟩

/-- C4: from zero registers and a smoother at rest, whatever the coefficients, the
unit impulse `1, 0, 0, ...` gives `y 0 = b0`, `y 1 = b1 - a1 * b0`,
`y 2 = b2 - a1 * y 1 - a2 * y 0` and `y n = -a1 * y (n-1) - a2 * y (n-2)` for
every `n >= 3`. -/
theorem impulse_response (m : MathLib F) (sv : Smoother F S) (s : MultiFilter F S)
    (hrest : sv.isSmoothing s.smoothedCutoffFreq = false)
    (hX1 : s.prevX1 = 0) (hX2 : s.prevX2 = 0) (hY1 : s.prevY1 = 0) (hY2 : s.prevY2 = 0) :
    outputAt m sv s impulse 0 = s.b0 ∧
    outputAt m sv s impulse 1 = s.b1 - s.a1 * s.b0 ∧
    outputAt m sv s impulse 2 =
      s.b2 - s.a1 * outputAt m sv s impulse 1 - s.a2 * outputAt m sv s impulse 0 ∧
    ∀ n, 3 ≤ n →
      outputAt m sv s impulse n =
        -s.a1 * outputAt m sv s impulse (n - 1) - s.a2 * outputAt m sv s impulse (n - 2) := by
  have h01 := outputAt_rest_zero_one m sv s impulse hrest
  have y0 : outputAt m sv s impulse 0 = s.b0 := by
    rw [h01.1, hX1, hX2, hY1, hY2]; simp [impulse]
  refine ⟨y0, ?_, ?_, ?_⟩
  · rw [h01.2, y0, hX1, hY1]; simp [impulse]
  · rw [outputAt_rest_recurrence m sv s impulse hrest 0]; simp [impulse]
  · intro n hn
    obtain ⟨k, rfl⟩ : ∃ k, n = k + 3 := ⟨n - 3, by omega⟩
    have e1 : k + 3 - 1 = k + 1 + 1 := by omega
    have e2 : k + 3 - 2 = k + 1 := by omega
    rw [e1, e2, outputAt_rest_recurrence m sv s impulse hrest (k + 1)]
    simp [impulse]

/-- Witness for C4: the filter of the end-to-end scenario, a fresh filter after
`setSamplingRate (44100)` (LowPass, cutoff 1000, Q 0.707, gain 0). -/
theorem impulse_response_witness :
    outputAt (⟨Real.pi, Real.sin, Real.cos, Real.sqrt, fun x y => x ^ y⟩ : MathLib ℝ)
        SmoothedValue.smoother
        (setSamplingRate ⟨Real.pi, Real.sin, Real.cos, Real.sqrt, fun x y => x ^ y⟩
          SmoothedValue.smoother (MultiFilter.new SmoothedValue.smoother (0 : ℝ)) 44100)
        impulse 0 =
      (setSamplingRate (⟨Real.pi, Real.sin, Real.cos, Real.sqrt, fun x y => x ^ y⟩ : MathLib ℝ)
          SmoothedValue.smoother (MultiFilter.new SmoothedValue.smoother (0 : ℝ)) 44100).b0 :=
  (impulse_response (⟨Real.pi, Real.sin, Real.cos, Real.sqrt, fun x y => x ^ y⟩ : MathLib ℝ)
    SmoothedValue.smoother
    (setSamplingRate ⟨Real.pi, Real.sin, Real.cos, Real.sqrt, fun x y => x ^ y⟩
      SmoothedValue.smoother (MultiFilter.new SmoothedValue.smoother (0 : ℝ)) 44100)
    (by simp [setSamplingRate, MultiFilter.new, SmoothedValue.smoother, SmoothedValue.reset,
          SmoothedValue.setCurrentAndTargetValue, SmoothedValue.isSmoothing])
    (by simp [setSamplingRate, MultiFilter.new]) (by simp [setSamplingRate, MultiFilter.new])
    (by simp [setSamplingRate, MultiFilter.new]) (by simp [setSamplingRate, MultiFilter.new])).1

/-- C5 (as the claim states it, refuted): a freshly constructed filter, reached by
the empty call sequence, does not store the derivation of its own parameters,
whatever value its uninitialised `b0` holds: its `a2` is `0`, the derived one is
`(1 - alpha) / (1 + alpha)` with `|alpha| < 1`. -/
theorem fresh_filter_not_consistent :
    ¬ ∃ b0 : ℝ, CoefficientsConsistent
        (⟨Real.pi, Real.sin, Real.cos, Real.sqrt, fun x y => x ^ y⟩ : MathLib ℝ)
        (runCalls ⟨Real.pi, Real.sin, Real.cos, Real.sqrt, fun x y => x ^ y⟩
          SmoothedValue.smoother (MultiFilter.new SmoothedValue.smoother b0) []) := by
  rintro ⟨b0, h⟩
  have h2 := (h Shape.lowPass rfl).2.2.2.2
  simp only [cookbook, runCalls, List.foldl_nil, MultiFilter.new] at h2
  have hlo := Real.neg_one_le_sin (2 * Real.pi * 1000 / 44100)
  have hhi := Real.sin_le_one (2 * Real.pi * 1000 / 44100)
  have e : Real.sin (2 * Real.pi * 1000 / 44100) / (2 * (707 / 1000))
      = Real.sin (2 * Real.pi * 1000 / 44100) * (1000 / 1414) := by ring
  rw [e] at h2
  rcases div_eq_zero_iff.mp h2.symm with h3 | h3 <;> linarith

/-- C5 (amended): in every state reached from a freshly constructed filter by a
call sequence that contains at least one of `setSamplingRate`, `setResonans`,
`setGain`, `setFilterType`, the stored `b0, b1, b2, a1, a2` are the derivation
applied to the stored `samplingRate`, `cutoffFrequency`, `Q`, `gainDB` and
`filterType`. -/
theorem coefficients_consistent_once_derived (m : MathLib F) (sv : Smoother F S) (b0 : F)
    (cs : List (Call F)) (h : ∃ c ∈ cs, c.derives = true) :
    CoefficientsConsistent m (runCalls m sv (MultiFilter.new sv b0) cs) :=
  runCalls_consistent m sv _ cs h

/-- Witness for C5: a fresh filter after `setSamplingRate (44100)`, a cutoff
target of 2000 and one processed sample. -/
theorem coefficients_consistent_once_derived_witness :
    CoefficientsConsistent (⟨Real.pi, Real.sin, Real.cos, Real.sqrt, fun x y => x ^ y⟩ : MathLib ℝ)
      (runCalls ⟨Real.pi, Real.sin, Real.cos, Real.sqrt, fun x y => x ^ y⟩
        SmoothedValue.smoother (MultiFilter.new SmoothedValue.smoother (0 : ℝ))
        [Call.setSamplingRate 44100, Call.setCutoffFrequency 2000, Call.processSample 1]) :=
  coefficients_consistent_once_derived _ _ _ _
    ⟨Call.setSamplingRate 44100, by simp, rfl⟩

/-- C9: `setCutoffFrequency` changes only the smoother: `cutoffFrequency`,
`samplingRate`, `Q`, `gainDB`, `filterType`, every stored coefficient and the
four delay registers are as before the call. -/
theorem setCutoffFrequency_changes_only_smoother (sv : Smoother F S) (s : MultiFilter F S)
    (hz : F) :
    (setCutoffFrequency sv s hz).cutoffFrequency = s.cutoffFrequency ∧
    (setCutoffFrequency sv s hz).samplingRate = s.samplingRate ∧
    (setCutoffFrequency sv s hz).Q = s.Q ∧
    (setCutoffFrequency sv s hz).gainDB = s.gainDB ∧
    (setCutoffFrequency sv s hz).filterType = s.filterType ∧
    (setCutoffFrequency sv s hz).a0 = s.a0 ∧
    (setCutoffFrequency sv s hz).a1 = s.a1 ∧
    (setCutoffFrequency sv s hz).a2 = s.a2 ∧
    (setCutoffFrequency sv s hz).b0 = s.b0 ∧
    (setCutoffFrequency sv s hz).b1 = s.b1 ∧
    (setCutoffFrequency sv s hz).b2 = s.b2 ∧
    (setCutoffFrequency sv s hz).prevX1 = s.prevX1 ∧
    (setCutoffFrequency sv s hz).prevX2 = s.prevX2 ∧
    (setCutoffFrequency sv s hz).prevY1 = s.prevY1 ∧
    (setCutoffFrequency sv s hz).prevY2 = s.prevY2 ∧
    setCutoffFrequency sv s hz =
      { s with smoothedCutoffFreq := sv.setTargetValue s.smoothedCutoffFreq hz } :=
  ⟨rfl, rfl, rfl, rfl, rfl, rfl, rfl, rfl, rfl, rfl, rfl, rfl, rfl, rfl, rfl, rfl⟩

/-- C10: `setFilterType`, `setResonans`, `setGain` and `setSamplingRate` leave the
four delay registers as they were, for every state and every argument. -/
theorem setters_keep_registers (m : MathLib F) (sv : Smoother F S) (s : MultiFilter F S)
    (v : F) :
    ((setFilterType m s v).prevX1, (setFilterType m s v).prevX2,
      (setFilterType m s v).prevY1, (setFilterType m s v).prevY2)
        = (s.prevX1, s.prevX2, s.prevY1, s.prevY2) ∧
    ((setResonans m s v).prevX1, (setResonans m s v).prevX2,
      (setResonans m s v).prevY1, (setResonans m s v).prevY2)
        = (s.prevX1, s.prevX2, s.prevY1, s.prevY2) ∧
    ((setGain m s v).prevX1, (setGain m s v).prevX2,
      (setGain m s v).prevY1, (setGain m s v).prevY2)
        = (s.prevX1, s.prevX2, s.prevY1, s.prevY2) ∧
    ((setSamplingRate m sv s v).prevX1, (setSamplingRate m sv s v).prevX2,
      (setSamplingRate m sv s v).prevY1, (setSamplingRate m sv s v).prevY2)
        = (s.prevX1, s.prevX2, s.prevY1, s.prevY2) := by
  simp [setFilterType, setResonans, setGain, setSamplingRate]

/-- C6 (as the claim states it, refuted): at sample rate 10 (`floor (0.05 * 10) = 0`
steps) a fresh filter given the target 2000 never gets `cutoffFrequency = 2000`,
after however many `processSample` calls; and at sample rate 44100 the target 0,
which is the target the smoother already has, never gets `cutoffFrequency = 0`. -/
theorem cutoff_target_never_reached :
    ((0 : ℝ) < 10 ∧
      ¬ ∃ k : ℕ,
        (stateAfter (⟨Real.pi, Real.sin, Real.cos, Real.sqrt, fun x y => x ^ y⟩ : MathLib ℝ)
          SmoothedValue.smoother
          (setCutoffFrequency SmoothedValue.smoother
            (setSamplingRate ⟨Real.pi, Real.sin, Real.cos, Real.sqrt, fun x y => x ^ y⟩
              SmoothedValue.smoother (MultiFilter.new SmoothedValue.smoother (0 : ℝ)) 10) 2000)
          (fun _ => 0) k).cutoffFrequency = 2000) ∧
    ((0 : ℝ) < 44100 ∧
      ¬ ∃ k : ℕ,
        (stateAfter (⟨Real.pi, Real.sin, Real.cos, Real.sqrt, fun x y => x ^ y⟩ : MathLib ℝ)
          SmoothedValue.smoother
          (setCutoffFrequency SmoothedValue.smoother
            (setSamplingRate ⟨Real.pi, Real.sin, Real.cos, Real.sqrt, fun x y => x ^ y⟩
              SmoothedValue.smoother (MultiFilter.new SmoothedValue.smoother (0 : ℝ)) 44100) 0)
          (fun _ => 0) k).cutoffFrequency = 0) := by
  have hfloor : ⌊(5 / 100 : ℝ) * 10⌋ = 0 := by
    rw [Int.floor_eq_zero_iff]
    constructor <;> norm_num
  refine ⟨⟨by norm_num, ?_⟩, ⟨by norm_num, ?_⟩⟩
  · rintro ⟨k, hk⟩
    have hrest : (SmoothedValue.smoother (F := ℝ)).isSmoothing
        (setCutoffFrequency SmoothedValue.smoother
          (setSamplingRate ⟨Real.pi, Real.sin, Real.cos, Real.sqrt, fun x y => x ^ y⟩
            SmoothedValue.smoother (MultiFilter.new SmoothedValue.smoother (0 : ℝ)) 10)
          2000).smoothedCutoffFreq = false := by
      simp [setSamplingRate, setCutoffFrequency, MultiFilter.new, SmoothedValue.smoother,
        SmoothedValue.reset, SmoothedValue.setCurrentAndTargetValue, SmoothedValue.setTargetValue,
        SmoothedValue.isSmoothing, SmoothedValue.init, hfloor]
    rw [(stateAfter_rest _ _ _ _ hrest k).2.1] at hk
    simp [setSamplingRate, setCutoffFrequency, MultiFilter.new] at hk
  · rintro ⟨k, hk⟩
    have hrest : (SmoothedValue.smoother (F := ℝ)).isSmoothing
        (setCutoffFrequency SmoothedValue.smoother
          (setSamplingRate ⟨Real.pi, Real.sin, Real.cos, Real.sqrt, fun x y => x ^ y⟩
            SmoothedValue.smoother (MultiFilter.new SmoothedValue.smoother (0 : ℝ)) 44100)
          0).smoothedCutoffFreq = false := by
      simp [setSamplingRate, setCutoffFrequency, MultiFilter.new, SmoothedValue.smoother,
        SmoothedValue.reset, SmoothedValue.setCurrentAndTargetValue, SmoothedValue.setTargetValue,
        SmoothedValue.isSmoothing, SmoothedValue.init]
    rw [(stateAfter_rest _ _ _ _ hrest k).2.1] at hk
    simp [setSamplingRate, setCutoffFrequency, MultiFilter.new] at hk

/-- C6 (amended): with the linear smoother, for every state, sample rate and target
`t` such that either `floor (0.05 * rate) >= 1` and `t` is not the target the
smoother already holds, or `cutoffFrequency` is `t` already: after
`setSamplingRate (rate)` and `setCutoffFrequency (t)`, `floor (0.05 * rate)` calls of
`processSample` leave `cutoffFrequency = t`, the smoother at rest and the
coefficients equal to the derivation at cutoff `t` (for the six filter types), and
every further call leaves `cutoffFrequency` and the coefficients as they are. -/
theorem cutoff_ramp_reaches_target (m : MathLib F) (s : MultiFilter F (SmoothedValue F))
    (rate t : F) (u : ℕ → F)
    (h : (1 ≤ ⌊(5 / 100 : F) * rate⌋ ∧ t ≠ s.smoothedCutoffFreq.target) ∨
      s.cutoffFrequency = t) :
    SettledAt m SmoothedValue.smoother
      (setCutoffFrequency SmoothedValue.smoother
        (setSamplingRate m SmoothedValue.smoother s rate) t)
      u ⌊(5 / 100 : F) * rate⌋.toNat t rate s.Q s.gainDB s.filterType := by
  by_cases hr : 1 ≤ ⌊(5 / 100 : F) * rate⌋ ∧ t ≠ s.smoothedCutoffFreq.target
  · exact settledAt_of_ramp m s rate t u hr.1 hr.2
  · exact settledAt_of_rest m s rate t u hr (h.resolve_left hr)

/-- Witness for C6: a fresh filter, sample rate 44100 (2205 steps), target 2000. -/
theorem cutoff_ramp_reaches_target_witness :
    (1 ≤ ⌊(5 / 100 : ℝ) * 44100⌋ ∧
      (2000 : ℝ) ≠ (MultiFilter.new SmoothedValue.smoother (0 : ℝ)).smoothedCutoffFreq.target) ∧
    (stateAfter (⟨Real.pi, Real.sin, Real.cos, Real.sqrt, fun x y => x ^ y⟩ : MathLib ℝ)
        SmoothedValue.smoother
        (setCutoffFrequency SmoothedValue.smoother
          (setSamplingRate ⟨Real.pi, Real.sin, Real.cos, Real.sqrt, fun x y => x ^ y⟩
            SmoothedValue.smoother (MultiFilter.new SmoothedValue.smoother (0 : ℝ)) 44100) 2000)
        (fun _ => 0) ⌊(5 / 100 : ℝ) * 44100⌋.toNat).cutoffFrequency = 2000 := by
  have h1 : 1 ≤ ⌊(5 / 100 : ℝ) * 44100⌋ := by
    rw [Int.le_floor]
    norm_num
  have h2 : (2000 : ℝ) ≠
      (MultiFilter.new SmoothedValue.smoother (0 : ℝ)).smoothedCutoffFreq.target := by
    simp [MultiFilter.new, SmoothedValue.smoother, SmoothedValue.init]
  exact ⟨⟨h1, h2⟩, (cutoff_ramp_reaches_target _ _ 44100 2000 (fun _ => 0) (Or.inl ⟨h1, h2⟩)).1⟩

/-- C7 (the code at the failing input): a fresh filter after `setSamplingRate (44100)`
and `setCutoffFrequency (2000)` has `cutoffFrequency = 1000`; the first
`processSample` moves it to `2000 / 2205`, which does not lie between `1000` and the
target `2000`: the ramp starts from the smoother's initial value `0`, not from the
cutoff in force. -/
theorem cutoff_jumps_away_from_previous :
    (setCutoffFrequency SmoothedValue.smoother
      (setSamplingRate (⟨Real.pi, Real.sin, Real.cos, Real.sqrt, fun x y => x ^ y⟩ : MathLib ℝ)
        SmoothedValue.smoother (MultiFilter.new SmoothedValue.smoother (0 : ℝ)) 44100)
      2000).cutoffFrequency = 1000 ∧
    (processSample (⟨Real.pi, Real.sin, Real.cos, Real.sqrt, fun x y => x ^ y⟩ : MathLib ℝ)
      SmoothedValue.smoother
      (setCutoffFrequency SmoothedValue.smoother
        (setSamplingRate ⟨Real.pi, Real.sin, Real.cos, Real.sqrt, fun x y => x ^ y⟩
          SmoothedValue.smoother (MultiFilter.new SmoothedValue.smoother (0 : ℝ)) 44100) 2000)
      0).2.cutoffFrequency = 2000 / 2205 ∧
    ¬ Between (1000 : ℝ) 2000
      (processSample (⟨Real.pi, Real.sin, Real.cos, Real.sqrt, fun x y => x ^ y⟩ : MathLib ℝ)
        SmoothedValue.smoother
        (setCutoffFrequency SmoothedValue.smoother
          (setSamplingRate ⟨Real.pi, Real.sin, Real.cos, Real.sqrt, fun x y => x ^ y⟩
            SmoothedValue.smoother (MultiFilter.new SmoothedValue.smoother (0 : ℝ)) 44100) 2000)
        0).2.cutoffFrequency := by
  have hfloor : ⌊(5 / 100 : ℝ) * 44100⌋ = 2205 := by
    have e : (5 / 100 : ℝ) * 44100 = ((2205 : ℤ) : ℝ) := by norm_num
    rw [e, Int.floor_intCast]
  have hcut : (processSample (⟨Real.pi, Real.sin, Real.cos, Real.sqrt, fun x y => x ^ y⟩ : MathLib ℝ)
      SmoothedValue.smoother
      (setCutoffFrequency SmoothedValue.smoother
        (setSamplingRate ⟨Real.pi, Real.sin, Real.cos, Real.sqrt, fun x y => x ^ y⟩
          SmoothedValue.smoother (MultiFilter.new SmoothedValue.smoother (0 : ℝ)) 44100) 2000)
      0).2.cutoffFrequency = 2000 / 2205 := by
    simp [processSample, setSamplingRate, setCutoffFrequency, MultiFilter.new,
      SmoothedValue.smoother, SmoothedValue.reset, SmoothedValue.setCurrentAndTargetValue,
      SmoothedValue.setTargetValue, SmoothedValue.isSmoothing, SmoothedValue.getNextValue,
      SmoothedValue.init, hfloor]
  refine ⟨by simp [setSamplingRate, setCutoffFrequency, MultiFilter.new], hcut, ?_⟩
  rw [hcut]
  unfold Between
  norm_num

/-- C8 (the code at the failing input): on a fresh filter `setCutoffFrequency (2000)`
followed by `setSamplingRate (44100)` leaves, after any number of `processSample`
calls, `cutoffFrequency = 1000` and the LowPass coefficients of cutoff 1000, which
are not those of cutoff 2000. -/
theorem cutoff_before_rate_is_lost (u : ℕ → ℝ) (n : ℕ) :
    (stateAfter (⟨Real.pi, Real.sin, Real.cos, Real.sqrt, fun x y => x ^ y⟩ : MathLib ℝ)
      SmoothedValue.smoother
      (setSamplingRate ⟨Real.pi, Real.sin, Real.cos, Real.sqrt, fun x y => x ^ y⟩
        SmoothedValue.smoother
        (setCutoffFrequency SmoothedValue.smoother
          (MultiFilter.new SmoothedValue.smoother (0 : ℝ)) 2000) 44100)
      u n).cutoffFrequency = 1000 ∧
    StoresDerivation (⟨Real.pi, Real.sin, Real.cos, Real.sqrt, fun x y => x ^ y⟩ : MathLib ℝ)
      (stateAfter (⟨Real.pi, Real.sin, Real.cos, Real.sqrt, fun x y => x ^ y⟩ : MathLib ℝ)
        SmoothedValue.smoother
        (setSamplingRate ⟨Real.pi, Real.sin, Real.cos, Real.sqrt, fun x y => x ^ y⟩
          SmoothedValue.smoother
          (setCutoffFrequency SmoothedValue.smoother
            (MultiFilter.new SmoothedValue.smoother (0 : ℝ)) 2000) 44100)
        u n)
      Shape.lowPass 1000 44100 (707 / 1000) 0 ∧
    ¬ StoresDerivation (⟨Real.pi, Real.sin, Real.cos, Real.sqrt, fun x y => x ^ y⟩ : MathLib ℝ)
      (stateAfter (⟨Real.pi, Real.sin, Real.cos, Real.sqrt, fun x y => x ^ y⟩ : MathLib ℝ)
        SmoothedValue.smoother
        (setSamplingRate ⟨Real.pi, Real.sin, Real.cos, Real.sqrt, fun x y => x ^ y⟩
          SmoothedValue.smoother
          (setCutoffFrequency SmoothedValue.smoother
            (MultiFilter.new SmoothedValue.smoother (0 : ℝ)) 2000) 44100)
        u n)
      Shape.lowPass 2000 44100 (707 / 1000) 0 := by
  have h := cutoff_before_rate_stays_default
    (⟨Real.pi, Real.sin, Real.cos, Real.sqrt, fun x y => x ^ y⟩ : MathLib ℝ) 0 2000 44100 u n
  have hpar := stateAfter_params
    (⟨Real.pi, Real.sin, Real.cos, Real.sqrt, fun x y => x ^ y⟩ : MathLib ℝ)
    SmoothedValue.smoother
    (setSamplingRate ⟨Real.pi, Real.sin, Real.cos, Real.sqrt, fun x y => x ^ y⟩
      SmoothedValue.smoother
      (setCutoffFrequency SmoothedValue.smoother
        (MultiFilter.new SmoothedValue.smoother (0 : ℝ)) 2000) 44100) u n
  have hd := h.2 Shape.lowPass (by rw [hpar.2.2.2]; simp [setSamplingRate, setCutoffFrequency,
    MultiFilter.new, Shape.toFilterType])
  rw [h.1, hpar.1, hpar.2.1, hpar.2.2.1] at hd
  simp only [setSamplingRate, setCutoffFrequency, MultiFilter.new,
    updateCoefficients_samplingRate, updateCoefficients_Q, updateCoefficients_gainDB] at hd
  refine ⟨h.1, hd, ?_⟩
  intro h2
  exact lowPass_a2_differs (hd.2.2.2.2.symm.trans h2.2.2.2.2)

/-- C20: `processBlock` leaves the samples of every input channel as they were (the
first `totalNumInputChannels` channels of the buffer are unchanged, and so is the
number of channels), while the filter of each input channel is advanced by
`processSample` on every sample of its channel, the returned values being dropped. -/
theorem processBlock_keeps_input_samples (m : MathLib F) (sv : Smoother F S)
    (totalNumInputChannels totalNumOutputChannels : ℕ)
    (mFilter : List (MultiFilter F S)) (buffer : List (List F)) :
    (processBlock m sv totalNumInputChannels totalNumOutputChannels mFilter buffer).2.take
        totalNumInputChannels = buffer.take totalNumInputChannels ∧
    (processBlock m sv totalNumInputChannels totalNumOutputChannels mFilter buffer).2.length
      = buffer.length ∧
    ∀ (channel : ℕ) (f : MultiFilter F S) (channelData : List F),
      channel < totalNumInputChannels → mFilter[channel]? = some f →
      buffer[channel]? = some channelData →
      (processBlock m sv totalNumInputChannels totalNumOutputChannels mFilter
          buffer).2[channel]? = some channelData ∧
      (processBlock m sv totalNumInputChannels totalNumOutputChannels mFilter
          buffer).1[channel]? =
        some (channelData.foldl (fun g x => (processSample m sv g x).2) f) := by
  refine ⟨?_, ?_, ?_⟩
  · have := clearChannels_take (F := F) totalNumInputChannels totalNumOutputChannels 0 buffer
    simpa [processBlock, processInputs_snd] using this
  · simp [processBlock, processInputs_snd, clearChannels_length]
  · intro channel f channelData hc hf hch
    have hcl := clearChannels_getElem? (F := F) totalNumInputChannels totalNumOutputChannels 0
      buffer channel (by omega)
    refine ⟨?_, ?_⟩
    · simp only [processBlock, processInputs_snd]
      rw [hcl, hch]
    · exact processInputs_fst m sv _ _ _ channel hc f channelData hf (by rw [hcl, hch])

/-- C11 (as the claim states it, refuted): a LowShelf filter with `samplingRate =
44100`, `cutoffFrequency = 1e-5`, `Q = 0.707` and `gainDB = -20000` meets the caller
constraints, and with the double precision library results (`pow (10, -500) = 0`,
`cos (omega) = 1`) the raw `a0` that `updateCoefficients` computes is zero. -/
theorem shelf_raw_a0_zero_when_gain_underflows :
    0 < gainUnderflowState.samplingRate ∧ 0 < gainUnderflowState.cutoffFrequency ∧
    gainUnderflowState.cutoffFrequency < gainUnderflowState.samplingRate / 2 ∧
    0 < gainUnderflowState.Q ∧
    gainUnderflowState.filterType = FilterType.LowShelf ∧
    (rawCoefficients doubleMathLib gainUnderflowState).a0 = 0 ∧
    (updateCoefficients doubleMathLib gainUnderflowState).a0 = 0 := by
  have h : (rawCoefficients doubleMathLib gainUnderflowState).a0 = 0 := by
    simp [rawCoefficients, doubleMathLib, gainUnderflowState, MultiFilter.new, FilterType.LowShelf,
      FilterType.LowPass, FilterType.HighPass, FilterType.BandPass, FilterType.Notch,
      FilterType.HighShelf]
    norm_num
  refine ⟨?_, ?_, ?_, ?_, rfl, h, h⟩
  · simp [gainUnderflowState, MultiFilter.new]
  · simp [gainUnderflowState, MultiFilter.new]
  · simp only [gainUnderflowState, MultiFilter.new]; norm_num
  · simp only [gainUnderflowState, MultiFilter.new]; norm_num

/-- C11 (amended): with the real sine, cosine, square root and power, under the
caller constraints `samplingRate > 0`, `0 < cutoffFrequency < samplingRate / 2`,
`Q > 0`, with `cutoffFrequency` at most `2 ^ 128` (a `float`, as `setCutoffFrequency`
takes it) and `gainDB` within the range `-12 .. 12` of the plugin's `GAIN` parameter,
the raw `a0` that `updateCoefficients` computes is strictly positive for each of the
six filter types, so the normalisation never divides by zero. -/
theorem raw_a0_positive (s : MultiFilter ℝ S) (shape : Shape)
    (hft : s.filterType = shape.toFilterType) (hr : 0 < s.samplingRate)
    (hc0 : 0 < s.cutoffFrequency) (hc1 : s.cutoffFrequency < s.samplingRate / 2)
    (hc2 : s.cutoffFrequency ≤ 2 ^ 128)
    (hQ : 0 < s.Q) (hg0 : -12 ≤ s.gainDB) (hg1 : s.gainDB ≤ 12) :
    0 < (rawCoefficients (⟨Real.pi, Real.sin, Real.cos, Real.sqrt, fun x y => x ^ y⟩ : MathLib ℝ) s).a0 ∧ (rawCoefficients (⟨Real.pi, Real.sin, Real.cos, Real.sqrt, fun x y => x ^ y⟩ : MathLib ℝ) s).a0 ≠ 0 ∧
      (updateCoefficients (⟨Real.pi, Real.sin, Real.cos, Real.sqrt, fun x y => x ^ y⟩ : MathLib ℝ) s).a0 = (rawCoefficients (⟨Real.pi, Real.sin, Real.cos, Real.sqrt, fun x y => x ^ y⟩ : MathLib ℝ) s).a0 := by
  have h := rawCoefficients_a0_pos s shape hft hr hc0 hc1 hQ
  exact ⟨h, h.ne', rfl⟩

/-- Witness for C11: the default parameters of a fresh filter (LowPass, 44100 Hz,
1000 Hz, Q 0.707, 0 dB). -/
theorem raw_a0_positive_witness :
    0 < (rawCoefficients (⟨Real.pi, Real.sin, Real.cos, Real.sqrt, fun x y => x ^ y⟩ : MathLib ℝ) (MultiFilter.new SmoothedValue.smoother (0 : ℝ))).a0 :=
  (raw_a0_positive (MultiFilter.new SmoothedValue.smoother (0 : ℝ)) Shape.lowPass rfl
    (by simp [MultiFilter.new]) (by simp [MultiFilter.new])
    (by simp only [MultiFilter.new]; norm_num) (by simp only [MultiFilter.new]; norm_num)
    (by simp only [MultiFilter.new]; norm_num) (by simp only [MultiFilter.new]; norm_num)
    (by simp only [MultiFilter.new]; norm_num)).1

/-- C12: for each of the six filter types the coefficients `updateCoefficients`
leaves depend only on `cutoffFrequency`, `samplingRate`, `Q`, `gainDB` and
`filterType`: two states that agree on these five end with the same `a0, b0, b1, b2,
a1, a2`, and a second call in a row changes nothing. -/
theorem updateCoefficients_depends_only_on_parameters (m : MathLib F)
    (s1 s2 : MultiFilter F S) (shape : Shape) (hshape : s1.filterType = shape.toFilterType)
    (hft : s2.filterType = s1.filterType) (hc : s2.cutoffFrequency = s1.cutoffFrequency)
    (hr : s2.samplingRate = s1.samplingRate) (hq : s2.Q = s1.Q)
    (hg : s2.gainDB = s1.gainDB) :
    ((updateCoefficients m s2).a0, (updateCoefficients m s2).b0, (updateCoefficients m s2).b1,
      (updateCoefficients m s2).b2, (updateCoefficients m s2).a1, (updateCoefficients m s2).a2) =
    ((updateCoefficients m s1).a0, (updateCoefficients m s1).b0, (updateCoefficients m s1).b1,
      (updateCoefficients m s1).b2, (updateCoefficients m s1).a1, (updateCoefficients m s1).a2) ∧
    updateCoefficients m (updateCoefficients m s1) = updateCoefficients m s1 := by
  constructor
  · rw [updateCoefficients_of_params m s2 shape (hft.trans hshape),
      updateCoefficients_of_params m s1 shape hshape, hc, hr, hq, hg]
  · exact updateCoefficients_idempotent m s1 shape hshape

/-- Witness for C12: two fresh filters whose uninitialised `b0` differ. -/
theorem updateCoefficients_depends_only_on_parameters_witness :
    (updateCoefficients (⟨Real.pi, Real.sin, Real.cos, Real.sqrt, fun x y => x ^ y⟩ : MathLib ℝ) (MultiFilter.new SmoothedValue.smoother (5 : ℝ))).b0 =
      (updateCoefficients (⟨Real.pi, Real.sin, Real.cos, Real.sqrt, fun x y => x ^ y⟩ : MathLib ℝ) (MultiFilter.new SmoothedValue.smoother (0 : ℝ))).b0 :=
  congrArg (fun t => t.2.1)
    (updateCoefficients_depends_only_on_parameters (⟨Real.pi, Real.sin, Real.cos, Real.sqrt, fun x y => x ^ y⟩ : MathLib ℝ) (MultiFilter.new SmoothedValue.smoother (0 : ℝ))
      (MultiFilter.new SmoothedValue.smoother (5 : ℝ)) Shape.lowPass rfl rfl rfl rfl rfl rfl).1

/-- C15: for HighPass and raw `a0 != 0` the stored feed-forward coefficients satisfy
`b0 + b1 + b2 = 0`, and a HighPass filter whose input registers and input are the
same constant `c` and whose output registers are zero returns exactly zero. -/
theorem highPass_zero_dc (m : MathLib F) (sv : Smoother F S) (s : MultiFilter F S) (c : F)
    (hft : s.filterType = FilterType.HighPass) (ha0 : (rawCoefficients m s).a0 ≠ 0) :
    (updateCoefficients m s).b0 + (updateCoefficients m s).b1 + (updateCoefficients m s).b2 = 0 ∧
    (processSample m sv
      { updateCoefficients m s with prevX1 := c, prevX2 := c, prevY1 := 0, prevY2 := 0 } c).1
      = 0 := by
  have hdc := highPass_dc m s hft
  refine ⟨hdc, ?_⟩
  by_cases hs : sv.isSmoothing s.smoothedCutoffFreq = true
  · have h2 := highPass_dc m
      { updateCoefficients m s with
        prevX1 := c, prevX2 := c, prevY1 := 0, prevY2 := 0
        cutoffFrequency := (sv.getNextValue s.smoothedCutoffFreq).1
        smoothedCutoffFreq := (sv.getNextValue s.smoothedCutoffFreq).2 }
      (by simpa using hft)
    simp only [processSample, updateCoefficients_smoothedCutoffFreq, hs, if_true,
      updateCoefficients_prevX1, updateCoefficients_prevX2, updateCoefficients_prevY1,
      updateCoefficients_prevY2]
    linear_combination c * h2
  · have hs' : sv.isSmoothing s.smoothedCutoffFreq = false := by simpa using hs
    simp only [processSample, updateCoefficients_smoothedCutoffFreq, hs', Bool.false_eq_true,
      if_false]
    linear_combination c * hdc

/-- Witness for C15: the default parameters with the type set to HighPass, and the
constant 3. -/
theorem highPass_zero_dc_witness :
    (processSample (⟨Real.pi, Real.sin, Real.cos, Real.sqrt, fun x y => x ^ y⟩ : MathLib ℝ) SmoothedValue.smoother
      { updateCoefficients (⟨Real.pi, Real.sin, Real.cos, Real.sqrt, fun x y => x ^ y⟩ : MathLib ℝ)
          { (MultiFilter.new SmoothedValue.smoother (0 : ℝ)) with filterType := FilterType.HighPass } with
        prevX1 := 3, prevX2 := 3, prevY1 := 0, prevY2 := 0 } 3).1 = 0 :=
  (highPass_zero_dc (⟨Real.pi, Real.sin, Real.cos, Real.sqrt, fun x y => x ^ y⟩ : MathLib ℝ) SmoothedValue.smoother
    { (MultiFilter.new SmoothedValue.smoother (0 : ℝ)) with filterType := FilterType.HighPass } 3 rfl
    (rawCoefficients_a0_pos _ Shape.highPass rfl (by simp [MultiFilter.new])
      (by simp [MultiFilter.new]) (by simp only [MultiFilter.new]; norm_num)
      (by simp only [MultiFilter.new]; norm_num)).ne').2

/-- C19 (as the claim states it, refuted): with `filterType = 7`, `a0 = 2` and the
five normalised coefficients zero, `updateCoefficients` leaves the coefficients
unchanged although the stored `a0` is not one. -/
theorem out_of_range_unchanged_without_unit_a0 :
    5 < (zeroCoefficientState : MultiFilter ℝ (SmoothedValue ℝ)).filterType ∧
    updateCoefficients (⟨Real.pi, Real.sin, Real.cos, Real.sqrt, fun x y => x ^ y⟩ : MathLib ℝ) zeroCoefficientState = zeroCoefficientState ∧
    (zeroCoefficientState : MultiFilter ℝ (SmoothedValue ℝ)).a0 ≠ 1 := by
  refine ⟨by decide, ?_, by simp [zeroCoefficientState]⟩
  rw [updateCoefficients, rawCoefficients_default _ _ (Or.inr (by decide))]
  simp [zeroCoefficientState]

/-- C19 (amended): when `filterType` is outside the enumerators `0..5`,
`updateCoefficients` assigns no raw coefficient and still normalises: `b0, b1, b2,
a1, a2` are replaced by their previous values divided by the stored `a0`, and `a0`
is kept; so the state is left unchanged when the stored `a0` is one. -/
theorem updateCoefficients_out_of_range (m : MathLib F) (s : MultiFilter F S)
    (hout : s.filterType < 0 ∨ 5 < s.filterType) :
    rawCoefficients m s = s ∧
    updateCoefficients m s =
      { s with
        b0 := s.b0 / s.a0
        b1 := s.b1 / s.a0
        b2 := s.b2 / s.a0
        a1 := s.a1 / s.a0
        a2 := s.a2 / s.a0 } ∧
    (updateCoefficients m s).a0 = s.a0 ∧
    (s.a0 = 1 → updateCoefficients m s = s) := by
  have hraw := rawCoefficients_default m s hout
  have hu : updateCoefficients m s =
      { s with
        b0 := s.b0 / s.a0
        b1 := s.b1 / s.a0
        b2 := s.b2 / s.a0
        a1 := s.a1 / s.a0
        a2 := s.a2 / s.a0 } := by
    rw [updateCoefficients, hraw]
  refine ⟨hraw, hu, by rw [hu], ?_⟩
  intro h1
  rw [hu]
  exact multiFilter_ext _ _ rfl rfl rfl rfl rfl rfl (by simp [h1]) (by simp [h1])
    (by simp [h1]) (by simp [h1]) (by simp [h1]) rfl rfl rfl rfl rfl

/-- Witness for C19: a fresh filter after `setFilterType (7)`. -/
theorem updateCoefficients_out_of_range_witness :
    5 < (setFilterType (⟨Real.pi, Real.sin, Real.cos, Real.sqrt, fun x y => x ^ y⟩ : MathLib ℝ) (MultiFilter.new SmoothedValue.smoother (0 : ℝ)) 7).filterType ∧
    (updateCoefficients (⟨Real.pi, Real.sin, Real.cos, Real.sqrt, fun x y => x ^ y⟩ : MathLib ℝ) (setFilterType (⟨Real.pi, Real.sin, Real.cos, Real.sqrt, fun x y => x ^ y⟩ : MathLib ℝ) (MultiFilter.new SmoothedValue.smoother (0 : ℝ)) 7)).a0 =
      (setFilterType (⟨Real.pi, Real.sin, Real.cos, Real.sqrt, fun x y => x ^ y⟩ : MathLib ℝ) (MultiFilter.new SmoothedValue.smoother (0 : ℝ)) 7).a0 := by
  have h7 : 5 < (setFilterType (⟨Real.pi, Real.sin, Real.cos, Real.sqrt, fun x y => x ^ y⟩ : MathLib ℝ) (MultiFilter.new SmoothedValue.smoother (0 : ℝ)) 7).filterType := by
    have e : ⌊(7 : ℝ)⌋ = 7 := by
      have e' : (7 : ℝ) = ((7 : ℤ) : ℝ) := by norm_num
      rw [e', Int.floor_intCast]
    simp [setFilterType, toFilterType, e]
  exact ⟨h7, (updateCoefficients_out_of_range (⟨Real.pi, Real.sin, Real.cos, Real.sqrt, fun x y => x ^ y⟩ : MathLib ℝ) _ (Or.inr h7)).2.2.1⟩

/-- Witness for C20: a stereo buffer through two fresh filters. -/
theorem processBlock_keeps_input_samples_witness :
    (processBlock (⟨Real.pi, Real.sin, Real.cos, Real.sqrt, fun x y => x ^ y⟩ : MathLib ℝ) SmoothedValue.smoother 2 2 [(MultiFilter.new SmoothedValue.smoother (0 : ℝ)), (MultiFilter.new SmoothedValue.smoother (0 : ℝ))]
      [[1, 2, 3], [4, 5, 6]]).2 = [[1, 2, 3], [4, 5, 6]] := by
  have h := (processBlock_keeps_input_samples (⟨Real.pi, Real.sin, Real.cos, Real.sqrt, fun x y => x ^ y⟩ : MathLib ℝ) SmoothedValue.smoother 2 2 [(MultiFilter.new SmoothedValue.smoother (0 : ℝ)), (MultiFilter.new SmoothedValue.smoother (0 : ℝ))]
    [[1, 2, 3], [4, 5, 6]])
  have h1 := h.1
  have h2 := h.2.1
  rw [List.take_of_length_le (by rw [h2]; simp), List.take_of_length_le (by simp)] at h1
  exact h1

end BiquadFilter
